import Mathlib

/-!
Verification of the project-guardian scanning and quality-control pipeline.

This file gives a shallow embedding, in Lean 4, of the parts of the
repository that the verified claims talk about:

* src/quality_control.py   - health score and duplicate-similarity logic
* src/guardian_mindq.py    - change records and the guardian status machine
* src/guardian_watcher.py  - debounced file watcher
* src/guardian_scanner.py  - snapshot scanner (file categories, ports)

Python strings are Lean String, Python floats produced by the similarity
and score arithmetic are modelled as exact rationals, Python dict and set
are modelled by association lists and Finset.  External libraries
(hashlib, ast, re, watchdog) are modelled as parameters or as injective
abstractions, as documented at each definition.
-/

namespace Guardian

/-! ## Small Python-flavoured helpers -/

/-- Splitting a character list at every occurrence of a separator
character.  Mirrors the Python `str.split` semantics: the result always
has at least one (possibly empty) piece, and `n` separators yield
`n + 1` pieces. -/
def splitOnChar (c : Char) : List Char → List (List Char)
  | [] => [[]]
  | x :: xs =>
    let r := splitOnChar c xs
    if x = c then [] :: r else (x :: r.headD []) :: r.tail

/-- Python `content.split(chr(10))`: the list of lines of a string.
Always non-empty (the empty string has one empty line). -/
def pyLines (s : String) : List String :=
  (splitOnChar (Char.ofNat 10) s.toList).map (fun l => String.mk l)

/-! ## quality_control.py -/

/-- Dataclass DeadCodeFinding from src/quality_control.py. -/
structure DeadCodeFinding where
  file_path : String
  line_number : Nat
  code_type : String
  name : String
  reason : String
  confidence : ℚ
deriving DecidableEq

/-- Dataclass DuplicateFile from src/quality_control.py. -/
structure DuplicateFile where
  file1 : String
  file2 : String
  similarity : ℚ
  reason : String
  suggestion : String
deriving DecidableEq

/-- Dataclass StructureViolation from src/quality_control.py. -/
structure StructureViolation where
  file_path : String
  violation_type : String
  severity : String
  message : String
  suggestion : String
deriving DecidableEq

/-- QualityController._calculate_health_score
(src/quality_control.py lines 619 to 634).  Score starts at 100,
subtracts 2 per dead-code finding, 5 per duplicate pair and a
severity-dependent weight per structure violation, then clamps with
`max(0, min(100, score))`.  Python ints are modelled as ℤ. -/
def calculateHealthScore (dead_code : List DeadCodeFinding)
    (duplicates : List DuplicateFile)
    (violations : List StructureViolation) : ℤ :=
  let score : ℤ := 100
  let score := score - 2 * dead_code.length
  let score := score - 5 * duplicates.length
  let score := score -
    (violations.map (fun v =>
      if v.severity = "error" then (10 : ℤ)
      else if v.severity = "warning" then 3 else 1)).sum
  max 0 (min 100 score)

/-- The health-score formula exactly as the specification words it:
100 minus the weighted sum, clamped to the integer range [0,100].
Written separately from `calculateHealthScore` so that the claim relates
the specification wording to the code. -/
def specHealthScore (deadCount dupCount : Nat)
    (sevWeights : List ℤ) : ℤ :=
  max 0 (min 100 (100 - ((2 : ℤ) * deadCount + 5 * dupCount + sevWeights.sum)))

/-- A model of the local filesystem: maps a path to its content, or to
none when the file cannot be read (DuplicateFinder treats a read failure
as an exception caught in _calculate_similarity). -/
def FS : Type := String → Option String

/-- Model of hashlib.md5 hexdigest on a decoded string.  The real digest
is collision-free on every realistic input, so it is modelled by the
identity; the digest branch of _calculate_similarity is thereby
subsumed by the direct content comparison just before it. -/
def md5Model (s : String) : String := s

/-- Line set of a file content, as used by _calculate_similarity:
`set(content.split(chr(10)))`. -/
def lineSet (c : String) : Finset String := (pyLines c).toFinset

/-- DuplicateFinder._calculate_similarity
(src/quality_control.py lines 266 to 299).  Reads both files (a failure
of either read returns 0.0), returns 1.0 on identical content or equal
digests, otherwise the Jaccard similarity of the line sets, with the
defensive empty-set guards of the source. -/
def calculateSimilarity (fs : FS) (file1 file2 : String) : ℚ :=
  match fs file1, fs file2 with
  | some content1, some content2 =>
    if content1 = content2 then 1
    else if md5Model content1 = md5Model content2 then 1
    else
      let lines1 := lineSet content1
      let lines2 := lineSet content2
      if lines1 = ∅ ∨ lines2 = ∅ then 0
      else
        let common_lines := lines1 ∩ lines2
        let total_lines := (lines1 ∪ lines2).card
        if total_lines = 0 then 0
        else (common_lines.card : ℚ) / (total_lines : ℚ)
  | _, _ => 0

/-- Jaccard similarity of the line sets of two contents, exactly as the
specification words it. -/
def jaccardLines (c1 c2 : String) : ℚ :=
  ((lineSet c1 ∩ lineSet c2).card : ℚ) / ((lineSet c1 ∪ lineSet c2).card : ℚ)

/-- A concrete two-file filesystem: ten.py has ten distinct lines and
nine.py has the first nine of them, so the two files differ in exactly
one line out of ten. -/
def exFS : FS := fun p =>
  if p = "ten.py" then some "a\nb\nc\nd\ne\nf\ng\nh\ni\nj"
  else if p = "nine.py" then some "a\nb\nc\nd\ne\nf\ng\nh\ni"
  else none

/-! ## guardian_mindq.py: change records and the status machine -/

/-- A model of Python JSON-like values (strings, lists, dicts) as they
occur in the .guardian/mindq_changes.json records. -/
inductive PyVal where
  | str (s : String)
  | list (xs : List PyVal)
  | dict (kvs : List (String × PyVal))

/-- Python `d.get(k, default)` on a dict value; any non-dict value also
yields the default (the records in scope are always dicts). -/
def pyDictGet (v : PyVal) (k : String) (dflt : PyVal) : PyVal :=
  match v with
  | .dict kvs => ((kvs.find? (fun kv => kv.1 == k)).map Prod.snd).getD dflt
  | _ => dflt

/-- Reads a PyVal as a list of strings; the records in scope only ever
store lists of strings under list-valued keys. -/
def pyAsStrList (v : PyVal) : List String :=
  match v with
  | .list xs => xs.filterMap (fun x => match x with | .str s => some s | _ => none)
  | _ => []

/-- Reads a PyVal as a string. -/
def pyAsStr (v : PyVal) : String :=
  match v with
  | .str s => s
  | _ => ""

/-- Dataclass MindQStatus from src/guardian_mindq.py (lines 29 to 38). -/
structure MindQStatus where
  status : String
  last_goal : String
  target_phases : List String
  planned_files_count : Nat
  extra_files_count : Nat
deriving DecidableEq

/-- The record dict built by MindQGuardianAdapter.record_change
(src/guardian_mindq.py lines 999 to 1009).  Keys appear exactly as the
source writes them; note that the planned files are stored under the
key "files_planned".  Missing keys of the inputs are modelled with the
same defaults `dict.get` would give (the claims never exercise a missing
key, where the source would raise KeyError). -/
def recordChangeRecord (change_request plan : PyVal)
    (files_changed : Option (List String)) (timestamp : String) : PyVal :=
  .dict [
    ("id", pyDictGet change_request "id" (.str "")),
    ("timestamp", .str timestamp),
    ("goal", pyDictGet change_request "goal" (.str "")),
    ("target_phases", pyDictGet change_request "target_phases" (.list [])),
    ("files_planned", pyDictGet plan "files_to_edit" (.list [])),
    ("files_changed", .list ((files_changed.getD []).map PyVal.str)),
    ("affected_kpis", pyDictGet plan "affected_kpis" (.list [])),
    ("status", .str (if files_changed.getD [] ≠ [] then "completed" else "planned"))
  ]

/-- MindQGuardianAdapter.scan_guardian_status
(src/guardian_mindq.py lines 1412 to 1465), as a pure function of the
last loaded change record (none when no record exists) and the list of
changed files reported by git.  Faithful to the source: the planned
scope is read from `last_change.get("plan", dict()).get("files_to_edit", [])`. -/
def scanGuardianStatus (last_change : Option PyVal)
    (changed_files : List String) : MindQStatus :=
  if changed_files = [] then
    { status := "NO_CHANGES", last_goal := "", target_phases := [],
      planned_files_count := 0, extra_files_count := 0 }
  else
    match last_change with
    | none =>
      { status := "NO_PLAN_FOR_CHANGES", last_goal := "", target_phases := [],
        planned_files_count := 0, extra_files_count := changed_files.length }
    | some lc =>
      let last_goal := (pyAsStr (pyDictGet lc "goal" (.str ""))).take 100
      let target_phases := pyAsStrList (pyDictGet lc "target_phases" (.list []))
      let plan := pyDictGet lc "plan" (.dict [])
      let planned_files : Finset String :=
        (pyAsStrList (pyDictGet plan "files_to_edit" (.list []))).toFinset
      let changed_set : Finset String := changed_files.toFinset
      let planned_count := (changed_set ∩ planned_files).card
      let extra_count := (changed_set \ planned_files).card
      if 0 < extra_count then
        { status := "PLAN_VIOLATIONS", last_goal := last_goal,
          target_phases := target_phases,
          planned_files_count := planned_count, extra_files_count := extra_count }
      else
        { status := "ON_TRACK", last_goal := last_goal,
          target_phases := target_phases,
          planned_files_count := planned_count, extra_files_count := extra_count }

/-- A concrete change request used as a failing input for claim C1. -/
def exChangeRequest : PyVal :=
  .dict [("id", .str "cr-1"), ("goal", .str "Improve KPI"),
         ("target_phases", .list [.str "01"])]

/-- A concrete plan whose planned scope is the two files a.py and b.py. -/
def exPlan : PyVal :=
  .dict [("files_to_edit", .list [.str "a.py", .str "b.py"]),
         ("affected_kpis", .list [])]

/-! ## guardian_watcher.py: the debounced file watcher

The watcher is modelled as a transition system.  A timed event carries
the filesystem contents at that instant and whether a scan started at
that instant would succeed; the four transitions are the three watchdog
callbacks plus the flush performed by the watch loop every second.
Scan attempts are logged in scan_results: one entry per call of
_do_update that reached the scanner, true for success, false for a
caught exception.  Paths are taken relative to the project root. -/

/-- GuardianWatcher.WATCH_EXTENSIONS (src/guardian_watcher.py lines 39 to 44). -/
def WATCH_EXTENSIONS : List String :=
  [".py", ".js", ".jsx", ".ts", ".tsx", ".vue", ".svelte",
   ".java", ".kt", ".swift", ".go", ".rs", ".rb",
   ".css", ".scss", ".less", ".html", ".md",
   ".json", ".yaml", ".yml", ".toml"]

/-- GuardianWatcher.IGNORE_DIRS (src/guardian_watcher.py lines 47 to 51). -/
def IGNORE_DIRS : List String :=
  ["node_modules", ".git", "__pycache__", ".venv", "venv",
   "dist", "build", ".next", ".nuxt", "coverage",
   ".cursor", ".windsurf", ".vscode", ".idea"]

/-- GuardianWatcher.DEBOUNCE_TIME = 2.0 seconds. -/
def DEBOUNCE_TIME : ℚ := 2

/-- Index of the last occurrence of a character in a character list. -/
def lastIdxOf (c : Char) (cs : List Char) : Option Nat :=
  cs.enum.foldl (fun acc ix => if ix.2 = c then some ix.1 else acc) none

/-- The components of a relative path, Python Path.parts. -/
def pathParts (path : String) : List String :=
  (splitOnChar '/' path.toList).map (fun l => String.mk l)

/-- The final component of a path, Python Path.name. -/
def pyName (path : String) : String := (pathParts path).getLastD ""

/-- Python Path.suffix: the extension of the final component, empty when
the only dot is leading or trailing. -/
def pySuffix (path : String) : String :=
  let name := (pyName path).toList
  match lastIdxOf '.' name with
  | none => ""
  | some i =>
    if 0 < i ∧ i < name.length - 1 then String.mk (name.drop i) else ""

/-- Lowercasing via an explicit character-list map (Python str.lower on
the ASCII names in scope). -/
def strLower (s : String) : String := String.mk (s.toList.map Char.toLower)

/-- Contiguous substring test on character lists, Python `sub in s`. -/
def containsSub (hay sub : List Char) : Bool :=
  hay.tails.any (fun t => sub.isPrefixOf t)

/-- GuardianWatcher._should_watch (src/guardian_watcher.py lines 89 to
106): extension allowlist, ignored directory components, and exclusion
of the guardian output artifact itself. -/
def shouldWatch (path : String) : Bool :=
  if ¬ (strLower (pySuffix path) ∈ WATCH_EXTENSIONS) then false
  else if (pathParts path).any (fun part => part ∈ IGNORE_DIRS) then false
  else if containsSub (strLower (pyName path)).toList "guardian".toList then false
  else true

/-- GuardianWatcher._get_file_hash: md5 hexdigest of the raw content, or
the empty string when the file cannot be read.  The digest is modelled
injectively (a real hexdigest is never empty and is collision-free on
every realistic input). -/
def getFileHash (fs : FS) (path : String) : String :=
  match fs path with
  | some c => "h:" ++ c
  | none => ""

/-- Python dict get with default empty string, for the _file_hashes dict. -/
def hashGet (l : List (String × String)) (p : String) : String :=
  ((l.find? (fun kv => kv.1 == p)).map Prod.snd).getD ""

/-- Python dict assignment for the _file_hashes dict. -/
def hashSet (l : List (String × String)) (p v : String) : List (String × String) :=
  if (l.find? (fun kv => kv.1 == p)).isSome then
    l.map (fun kv => if kv.1 == p then (p, v) else kv)
  else l ++ [(p, v)]

/-- Python dict pop for the _file_hashes dict. -/
def hashPop (l : List (String × String)) (p : String) : List (String × String) :=
  l.filter (fun kv => ¬ kv.1 == p)

/-- The mutable state of a GuardianWatcher instance: last_update,
pending_changes, _file_hashes, plus a log of the scan attempts made by
_do_update (true = scan succeeded, false = exception caught and
reported).  Each log entry is one ScanTrigger. -/
structure WatcherState where
  last_update : ℚ
  pending_changes : Finset String
  file_hashes : List (String × String)
  scan_results : List Bool
deriving DecidableEq

/-- Initial state set up by GuardianWatcher.__init__. -/
def initWatcher : WatcherState := ⟨0, ∅, [], []⟩

/-- The pending-change entry recorded by _queue_update. -/
def eventMsg (action path : String) : String := action ++ ": " ++ path

/-- GuardianWatcher._do_update (src/guardian_watcher.py lines 162 to
192).  Returns immediately when nothing is pending; otherwise clears
pending_changes and sets last_update BEFORE attempting the scan, then
attempts the scan, whose failure is caught and printed. -/
def doUpdate (now : ℚ) (scan_ok : Bool) (s : WatcherState) : WatcherState :=
  if s.pending_changes = ∅ then s
  else
    { s with
      pending_changes := ∅
      last_update := now
      scan_results := s.scan_results ++ [scan_ok] }

/-- GuardianWatcher._queue_update (src/guardian_watcher.py lines 153 to
160): record the change, then update immediately when more than
DEBOUNCE_TIME has passed since the last update. -/
def queueUpdate (now : ℚ) (scan_ok : Bool) (path action : String)
    (s : WatcherState) : WatcherState :=
  let s1 := { s with
    pending_changes := insert (eventMsg action path) s.pending_changes }
  if now - s1.last_update > DEBOUNCE_TIME then doUpdate now scan_ok s1 else s1

/-- GuardianWatcher.on_modified (src/guardian_watcher.py lines 135 to
142): directory events and unwatched paths are ignored; the event is
dropped unless the recomputed digest differs from the stored one, in
which case the stored digest is updated and the event queued. -/
def onModified (fs : FS) (now : ℚ) (scan_ok : Bool) (path : String)
    (isDir : Bool) (s : WatcherState) : WatcherState :=
  if isDir then s
  else if shouldWatch path then
    let newHash := getFileHash fs path
    let oldHash := hashGet s.file_hashes path
    if newHash ≠ oldHash then
      queueUpdate now scan_ok path "modified"
        { s with file_hashes := hashSet s.file_hashes path newHash }
    else s
  else s

/-- GuardianWatcher.on_created (src/guardian_watcher.py lines 126 to 133). -/
def onCreated (fs : FS) (now : ℚ) (scan_ok : Bool) (path : String)
    (isDir : Bool) (s : WatcherState) : WatcherState :=
  if isDir then s
  else if shouldWatch path then
    queueUpdate now scan_ok path "created"
      { s with file_hashes := hashSet s.file_hashes path (getFileHash fs path) }
  else s

/-- GuardianWatcher.on_deleted (src/guardian_watcher.py lines 144 to 151). -/
def onDeleted (now : ℚ) (scan_ok : Bool) (path : String)
    (isDir : Bool) (s : WatcherState) : WatcherState :=
  if isDir then s
  else if shouldWatch path then
    queueUpdate now scan_ok path "deleted"
      { s with file_hashes := hashPop s.file_hashes path }
  else s

/-- GuardianWatcher.flush, called by the watch loop once per second
(src/guardian_watcher.py lines 194 to 197 and 218 to 221). -/
def flushTick (now : ℚ) (scan_ok : Bool) (s : WatcherState) : WatcherState :=
  if s.pending_changes ≠ ∅ then doUpdate now scan_ok s else s

/-- One external stimulus to the watcher. -/
inductive WEvent where
  | created (path : String) (isDir : Bool)
  | modified (path : String) (isDir : Bool)
  | deleted (path : String) (isDir : Bool)
  | flush

/-- A stimulus with its arrival time, the filesystem contents at that
instant, and whether a scan started at that instant would succeed. -/
structure TimedEvent where
  time : ℚ
  fs : FS
  scan_ok : Bool
  ev : WEvent

/-- One transition of the watcher. -/
def stepWatcher (s : WatcherState) (e : TimedEvent) : WatcherState :=
  match e.ev with
  | .created p d => onCreated e.fs e.time e.scan_ok p d s
  | .modified p d => onModified e.fs e.time e.scan_ok p d s
  | .deleted p d => onDeleted e.time e.scan_ok p d s
  | .flush => flushTick e.time e.scan_ok s

/-- A run of the watcher over a trace of stimuli. -/
def runWatcher (s : WatcherState) (tr : List TimedEvent) : WatcherState :=
  tr.foldl stepWatcher s

/-- Filesystem snapshots used in the watcher counterexamples. -/
def fsV1 : FS := fun p => if p = "src/main.py" then some "v1" else none

/-- Second snapshot with changed content for the same path. -/
def fsV2 : FS := fun p => if p = "src/main.py" then some "v2" else none

/-! ## guardian_scanner.py: snapshot scanner

The scanner walks a directory tree.  The tree is modelled as the list of
entries the walk enumerates, in enumeration order: each entry carries
its path relative to the root, whether it is a regular file, and its
content (none when reading raises).  External libraries are parameters:
pyParse models ast.parse plus ast.walk (the function names in walk
order, none on SyntaxError), jsFindall models re.findall for the three
JavaScript patterns, setOrder models the iteration order of a Python
set built from a list (fixed inside one interpreter process), and
portFindall models re.findall for the four port patterns (whose match
groups are always 4 or 5 digit strings). -/

/-- One entry of the directory walk. -/
structure TreeEntry where
  path : String
  isFile : Bool
  content : Option String
deriving DecidableEq

/-- A directory tree in enumeration order. -/
abbrev Tree : Type := List TreeEntry

/-- The external parser and regex oracles used by the scanner. -/
structure Parsers where
  pyParse : String → Option (List String)
  jsFindall : Nat → String → List String
  setOrder : List String → List String
  portFindall : Nat → String → List String

/-- GuardianScanner.SKIP_DIRS (src/guardian_scanner.py lines 20 to 24). -/
def SKIP_DIRS : List String :=
  ["node_modules", "__pycache__", ".git", ".venv", "venv",
   "dist", "build", ".next", ".cache", "coverage", ".pytest_cache",
   ".cursor", ".windsurf", ".idea", ".vscode"]

/-- GuardianScanner.CODE_EXTENSIONS (lines 27 to 31). -/
def CODE_EXTENSIONS : List String :=
  [".py", ".js", ".jsx", ".ts", ".tsx", ".vue", ".svelte",
   ".java", ".kt", ".swift", ".go", ".rs", ".rb", ".php",
   ".c", ".cpp", ".h", ".hpp", ".cs"]

/-- GuardianScanner.CONFIG_EXTENSIONS (lines 34 to 38). -/
def CONFIG_EXTENSIONS : List String :=
  [".json", ".yaml", ".yml", ".toml", ".ini", ".cfg",
   ".env", ".env.example", ".env.local",
   ".gitignore", ".dockerignore", ".prettierrc", ".eslintrc"]

/-- GuardianScanner.DOC_EXTENSIONS (lines 41 to 43). -/
def DOC_EXTENSIONS : List String := [".md", ".mdx", ".txt", ".rst", ".adoc"]

/-- GuardianScanner.STYLE_EXTENSIONS (lines 46 to 48). -/
def STYLE_EXTENSIONS : List String := [".css", ".scss", ".sass", ".less", ".styl"]

/-- GuardianScanner.DATA_EXTENSIONS (lines 51 to 53). -/
def DATA_EXTENSIONS : List String := [".sql", ".csv", ".xml", ".html", ".svg"]

/-- Binary extensions skipped for purpose inference in phase 2
(lines 309 to 314). -/
def BINARY_EXTS : List String :=
  [".png", ".jpg", ".jpeg", ".gif", ".ico", ".webp",
   ".mp3", ".mp4", ".wav", ".avi", ".mov",
   ".pdf", ".zip", ".tar", ".gz", ".rar",
   ".exe", ".dll", ".so", ".dylib",
   ".woff", ".woff2", ".ttf", ".eot",
   ".db", ".sqlite", ".sqlite3"]

/-- A path matches the glob `*ext` when its final component ends with
ext (the star may match the empty string). -/
def extMatches (ext path : String) : Bool :=
  ext.toList.isSuffixOf (pyName path).toList

/-- A path matches some extension of a list. -/
def matchesAny (exts : List String) (path : String) : Bool :=
  exts.any (fun ext => extMatches ext path)

/-- A path lies below one of the skipped directories:
`any(skip in file_path.parts for skip in SKIP_DIRS)`. -/
def isSkipped (path : String) : Bool :=
  (pathParts path).any (fun part => part ∈ SKIP_DIRS)

/-- Python Path.stem: the final component without its suffix. -/
def pyStem (path : String) : String :=
  let name := pyName path
  String.mk (name.toList.take (name.toList.length - (pySuffix path).toList.length))

/-- The name of the parent directory of a path, Python
file_path.parent.name (empty at the root). -/
def parentName (path : String) : String :=
  (pathParts path).dropLast.getLastD ""

/-- Python str.startswith with a single-character prefix. -/
def startsWithChar (c : Char) (s : String) : Bool :=
  s.toList.head? == some c

/-- GuardianScanner._infer_purpose (src/guardian_scanner.py lines 351
to 376): decision table on the parent directory name with entry-point
and stem fallbacks. -/
def inferPurpose (path : String) : String :=
  let name := strLower (pyStem path)
  let parent := strLower (parentName path)
  if parent ∈ ["components", "component"] then name ++ "-ui"
  else if parent ∈ ["hooks", "hook"] then name ++ "-logic"
  else if parent ∈ ["pages", "views"] then name ++ "-page"
  else if parent ∈ ["routes", "api"] then name ++ "-endpoints"
  else if parent ∈ ["services", "service"] then name ++ "-service"
  else if parent ∈ ["utils", "helpers", "lib"] then name ++ "-utils"
  else if parent ∈ ["models", "model"] then name ++ "-model"
  else if name ∈ ["main", "app", "index", "server"] then "entry-point"
  else name

/-- GuardianScanner._infer_config_purpose (lines 326 to 349). -/
def inferConfigPurpose (path : String) : String :=
  let name := (strLower (pyName path)).toList
  if containsSub name "package.json".toList then "npm-config"
  else if containsSub name "tsconfig".toList then "typescript-config"
  else if containsSub name "eslint".toList then "linting-config"
  else if containsSub name "prettier".toList then "formatting-config"
  else if containsSub name "docker".toList then "docker-config"
  else if containsSub name "env".toList then "environment-vars"
  else if containsSub name "gitignore".toList then "git-ignore"
  else if containsSub name "requirements".toList then "python-deps"
  else if containsSub name "pyproject".toList then "python-project"
  else "config"

/-- GuardianScanner._extract_functions (lines 378 to 416): ast walk for
Python (private names excluded), three regex patterns with
set-deduplication and a stoplist for JavaScript and TypeScript, empty
list on read or parse failure, capped at the first 10 entries. -/
def extractFunctions (P : Parsers) (path : String) (content : Option String) :
    List String :=
  let ext := pySuffix path
  let functions : List String :=
    match content with
    | none => []
    | some c =>
      if ext = ".py" then
        match P.pyParse c with
        | some names => names.filter (fun n => !startsWithChar (Char.ofNat 95) n)
        | none => []
      else if ext ∈ [".js", ".jsx", ".ts", ".tsx"] then
        let fns := P.jsFindall 0 c ++ P.jsFindall 1 c ++ P.jsFindall 2 c
        P.setOrder (fns.filter (fun f =>
          f ≠ "" ∧ !startsWithChar (Char.ofNat 95) f ∧
          f ∉ ["if", "for", "while", "switch"]))
      else []
  functions.take 10

/-- The per-file record stored in the snapshot files mapping. -/
structure FileInfo where
  purpose : String
  functions : List String
  category : String
deriving DecidableEq

/-- Record built for a code file in phase 1. -/
def codeInfo (P : Parsers) (e : TreeEntry) : FileInfo :=
  ⟨inferPurpose e.path, extractFunctions P e.path e.content, "code"⟩

/-- Record built for a config file in phase 1. -/
def configInfo (e : TreeEntry) : FileInfo := ⟨inferConfigPurpose e.path, [], "config"⟩

/-- Record built for a documentation file in phase 1. -/
def docsInfo : FileInfo := ⟨"documentation", [], "docs"⟩

/-- Record built for a style file in phase 1. -/
def stylesInfo : FileInfo := ⟨"styling", [], "styles"⟩

/-- Record built for a data file in phase 2. -/
def dataInfo : FileInfo := ⟨"data", [], "data"⟩

/-- Record built for a leftover file in phase 2 (lines 308 to 320). -/
def otherInfo (e : TreeEntry) : FileInfo :=
  ⟨if strLower (pySuffix e.path) ∈ BINARY_EXTS
    then "asset (" ++ pySuffix e.path ++ ")" else "other", [], "other"⟩

/-- Association list lookup, modelling Python dict access (dict keys
are unique, so first-match lookup is dict lookup). -/
def alGet {α : Type} : List (String × α) → String → Option α
  | [], _ => none
  | kv :: rest, k => if kv.1 = k then some kv.2 else alGet rest k

/-- Association list overwrite-or-append, modelling Python dict
assignment (insertion order preserved, first binding replaced). -/
def alSet {α : Type} : List (String × α) → String → α → List (String × α)
  | [], k, v => [(k, v)]
  | kv :: rest, k, v => if kv.1 = k then (k, v) :: rest else kv :: alSet rest k v

/-- The mutable maps built by GuardianScanner._scan_files: the files
dict and the six files_by_category buckets. -/
structure ScanFilesState where
  files : List (String × FileInfo)
  code : List (String × FileInfo)
  config : List (String × FileInfo)
  docs : List (String × FileInfo)
  styles : List (String × FileInfo)
  data : List (String × FileInfo)
  other : List (String × FileInfo)
deriving DecidableEq

/-- The empty maps of a fresh snapshot. -/
def emptyScan : ScanFilesState := ⟨[], [], [], [], [], [], []⟩

/-- The six category names, in the order the snapshot declares them. -/
def CATEGORIES : List String := ["code", "config", "docs", "styles", "data", "other"]

/-- The bucket of files_by_category named by a category string. -/
def getBucket (st : ScanFilesState) (c : String) : List (String × FileInfo) :=
  if c = "code" then st.code
  else if c = "config" then st.config
  else if c = "docs" then st.docs
  else if c = "styles" then st.styles
  else if c = "data" then st.data
  else st.other

/-- One `snapshot[files][rel_path] = file_info` assignment paired with
its `snapshot[files_by_category][cat][rel_path] = file_info` twin. -/
def insertEntry (cat : String) (p : String) (info : FileInfo)
    (st : ScanFilesState) : ScanFilesState :=
  { files := alSet st.files p info
    code := if cat = "code" then alSet st.code p info else st.code
    config := if cat = "config" then alSet st.config p info else st.config
    docs := if cat = "docs" then alSet st.docs p info else st.docs
    styles := if cat = "styles" then alSet st.styles p info else st.styles
    data := if cat = "data" then alSet st.data p info else st.data
    other := if cat = "other" then alSet st.other p info else st.other }

/-- One pass over the walked tree, inserting every entry whose
condition holds.  The condition may consult the current binding of the
files dict at the entry path, which models the
`rel_path not in self.snapshot[files]` checks of phase 2. -/
def treeFold (cond : TreeEntry → Option FileInfo → Bool) (cat : String)
    (mk : TreeEntry → FileInfo) (tree : Tree) (st : ScanFilesState) :
    ScanFilesState :=
  tree.foldl (fun st e =>
    if cond e (alGet st.files e.path) then insertEntry cat e.path (mk e) st
    else st) st

/-- An extension-grouped pass of _scan_files: for each extension of the
group, enumerate the tree through rglob, skip ignored directories, and
(for phase 2) skip paths already present in the files dict. -/
def extPhase (checkMember : Bool) (exts : List String) (cat : String)
    (mk : TreeEntry → FileInfo) (tree : Tree) (st : ScanFilesState) :
    ScanFilesState :=
  exts.foldl (fun st ext =>
    treeFold (fun e v =>
      extMatches ext e.path && !isSkipped e.path && (!checkMember || !v.isSome))
      cat mk tree st) st

/-- GuardianScanner._scan_files (src/guardian_scanner.py lines 213 to
324): phase 1 handles the code, config, docs and styles groups (no
membership check, directories included as rglob yields them); with
scan_all, phase 2 adds data files and then every remaining regular
file. -/
def scanFiles (P : Parsers) (scan_all : Bool) (tree : Tree) : ScanFilesState :=
  let st := extPhase false CODE_EXTENSIONS "code" (codeInfo P) tree emptyScan
  let st := extPhase false CONFIG_EXTENSIONS "config" configInfo tree st
  let st := extPhase false DOC_EXTENSIONS "docs" (fun _ => docsInfo) tree st
  let st := extPhase false STYLE_EXTENSIONS "styles" (fun _ => stylesInfo) tree st
  if scan_all then
    let st := extPhase true DATA_EXTENSIONS "data" (fun _ => dataInfo) tree st
    treeFold (fun e v => e.isFile && !isSkipped e.path && !v.isSome)
      "other" otherInfo tree st
  else st

/-- The record _scan_files ends up storing for a given walk entry:
skipped paths never enter the maps; otherwise the first matching
extension group decides the category, and remaining regular files land
in the other bucket.  The extension groups are mutually suffix-free, so
this first-match description coincides with the phase order of the
code. -/
def fileInfoFor (P : Parsers) (e : TreeEntry) : Option FileInfo :=
  if isSkipped e.path then none
  else if matchesAny CODE_EXTENSIONS e.path then some (codeInfo P e)
  else if matchesAny CONFIG_EXTENSIONS e.path then some (configInfo e)
  else if matchesAny DOC_EXTENSIONS e.path then some docsInfo
  else if matchesAny STYLE_EXTENSIONS e.path then some stylesInfo
  else if matchesAny DATA_EXTENSIONS e.path then some dataInfo
  else if e.isFile then some (otherInfo e) else none

/-- Partition property of a scan state: every path of the files dict
lies in exactly the bucket named by its record category, and the
buckets hold nothing else. -/
def Partitioned (st : ScanFilesState) : Prop :=
  ∀ p : String,
    (∀ info, alGet st.files p = some info →
      info.category ∈ CATEGORIES ∧
      alGet (getBucket st info.category) p = some info ∧
      ∀ c ∈ CATEGORIES, c ≠ info.category → alGet (getBucket st c) p = none) ∧
    (alGet st.files p = none → ∀ c ∈ CATEGORIES, alGet (getBucket st c) p = none)

/-- Mutual suffix-freeness of two extension groups: no extension of one
group is a suffix of an extension of the other, so no file name can
match both groups. -/
def suffixFreePair (xs ys : List String) : Bool :=
  xs.all (fun a => ys.all (fun b =>
    !(a.toList.isSuffixOf b.toList) && !(b.toList.isSuffixOf a.toList)))

/-- GuardianScanner._detect_connections file filter (line 431). -/
def CONNECTION_EXTS : List String := [".py", ".js", ".ts", ".env", ".json"]

/-- Python int() on the digit strings produced by the port patterns. -/
def pyInt (s : String) : Nat :=
  s.toList.foldl (fun acc c => acc * 10 + (c.toNat - 48)) 0

/-- GuardianScanner._detect_connections (src/guardian_scanner.py lines
418 to 444), one tree entry: for a readable file of an eligible
extension, for every of the four patterns and every matched port
string, record `connections[port] = file` when the numeric value lies
in [1000, 65535]; a read failure skips the file. -/
def connStep (P : Parsers) (conns : List (String × String)) (e : TreeEntry) :
    List (String × String) :=
  if e.isFile && (pySuffix e.path ∈ CONNECTION_EXTS) && !isSkipped e.path then
    match e.content with
    | none => conns
    | some c =>
      (List.range 4).foldl (fun conns i =>
        (P.portFindall i c).foldl (fun conns port =>
          if 1000 ≤ pyInt port ∧ pyInt port ≤ 65535 then alSet conns port e.path
          else conns) conns) conns
  else conns

/-- The full port scan over the walked tree. -/
def detectConnections (P : Parsers) (tree : Tree) : List (String × String) :=
  tree.foldl (connStep P) []

/-- An eligible tree entry declares a port string when one of the four
patterns matches it in its content with the numeric value in range. -/
def declaresPort (P : Parsers) (e : TreeEntry) (port : String) : Bool :=
  e.isFile && (pySuffix e.path ∈ CONNECTION_EXTS) && !isSkipped e.path &&
  (match e.content with
   | none => false
   | some c => (List.range 4).any (fun i =>
      (P.portFindall i c).any (fun q =>
        q == port && decide (1000 ≤ pyInt q ∧ pyInt q ≤ 65535))))

/-- Concrete parser oracles for the counterexamples: the only content
in play is the manifest line declaring port 3000, which the first and
the fourth port pattern both match. -/
def exParsers : Parsers :=
  { pyParse := fun _ => some []
    jsFindall := fun _ _ => []
    setOrder := fun xs => xs
    portFindall := fun i c =>
      if c = "port=3000" then (if i = 0 ∨ i = 3 then ["3000"] else []) else [] }

/-- Two Python files, each declaring port 3000, in one enumeration
order. -/
def exTreeA : Tree :=
  [⟨"a.py", true, some "port=3000"⟩, ⟨"b.py", true, some "port=3000"⟩]

/-- The same two files in the other enumeration order. -/
def exTreeB : Tree :=
  [⟨"b.py", true, some "port=3000"⟩, ⟨"a.py", true, some "port=3000"⟩]

end Guardian

namespace Guardian

/-! ## Theorems -/

theorem splitOnChar_ne_nil (c : Char) (cs : List Char) : splitOnChar c cs ≠ [] := by
  cases cs with
  | nil => simp [splitOnChar]
  | cons x xs => simp only [splitOnChar]; split <;> simp

theorem pyLines_ne_nil (s : String) : pyLines s ≠ [] := by
  simp [pyLines, splitOnChar_ne_nil]

theorem lineSet_nonempty (c : String) : lineSet c ≠ ∅ := by
  have h := pyLines_ne_nil c
  simp only [lineSet, ne_eq, ← Finset.not_nonempty_iff_eq_empty, not_not]
  cases hl : pyLines c with
  | nil => exact absurd hl h
  | cons a t => exact ⟨a, by simp [hl]⟩

/-- Claim C2: for every collection of findings, the health score equals
100 minus (2 times the number of dead-code findings plus 5 times the
number of duplicate pairs plus the sum over structure violations of 10
for severity error, 3 for warning, 1 otherwise), clamped to [0,100];
zero findings score 100, one dead-code finding scores 98, one duplicate
pair scores 95. -/
theorem c2_health_score_formula :
    (∀ (d : List DeadCodeFinding) (p : List DuplicateFile)
       (v : List StructureViolation),
      calculateHealthScore d p v =
        specHealthScore d.length p.length
          (v.map (fun x => if x.severity = "error" then (10 : ℤ)
            else if x.severity = "warning" then 3 else 1)))
    ∧ calculateHealthScore [] [] [] = 100
    ∧ (∀ f : DeadCodeFinding, calculateHealthScore [f] [] [] = 98)
    ∧ (∀ q : DuplicateFile, calculateHealthScore [] [q] [] = 95) := by
  refine ⟨?_, by simp [calculateHealthScore], ?_, ?_⟩
  · intro d p v
    simp only [calculateHealthScore, specHealthScore]
    congr 2
    ring
  · intro f; simp [calculateHealthScore]
  · intro q; simp [calculateHealthScore]

/-- Claim C3: for every pair of readable files the similarity is 1.0
when contents are byte-identical and otherwise the Jaccard similarity
of the line sets; two files differing in exactly one line out of ten
(ten.py and nine.py of exFS) yield similarity 9/10. -/
theorem c3_similarity_jaccard :
    (∀ (fs : FS) (f1 f2 c1 c2 : String), fs f1 = some c1 → fs f2 = some c2 →
      calculateSimilarity fs f1 f2 = if c1 = c2 then 1 else jaccardLines c1 c2)
    ∧ calculateSimilarity exFS "ten.py" "nine.py" = 9 / 10 := by
  constructor
  · intro fs f1 f2 c1 c2 h1 h2
    unfold calculateSimilarity
    rw [h1, h2]
    simp only [md5Model]
    by_cases hc : c1 = c2
    · simp [hc]
    · rw [if_neg hc, if_neg hc, if_neg hc]
      rw [if_neg (by simp [lineSet_nonempty c1, lineSet_nonempty c2])]
      rw [if_neg ?hcard]
      · rfl
      case hcard =>
        intro hzero
        have hemp : lineSet c1 ∪ lineSet c2 = ∅ := Finset.card_eq_zero.mp hzero
        have : lineSet c1 = ∅ := by
          have := Finset.union_eq_empty.mp hemp
          exact this.1
        exact lineSet_nonempty c1 this
  · with_unfolding_all decide

/-- Witness for claim C3: the general part applied to the concrete
filesystem exFS at two readable files with identical content. -/
theorem c3_similarity_jaccard_witness :
    calculateSimilarity exFS "ten.py" "ten.py" = 1 := by
  have h := c3_similarity_jaccard.1 exFS "ten.py" "ten.py"
    "a\nb\nc\nd\ne\nf\ng\nh\ni\nj" "a\nb\nc\nd\ne\nf\ng\nh\ni\nj" rfl rfl
  simpa using h

/-- Claim C10: file similarity is symmetric, including pairs where a
file is unreadable. -/
theorem c10_similarity_symmetric :
    ∀ (fs : FS) (f1 f2 : String),
      calculateSimilarity fs f1 f2 = calculateSimilarity fs f2 f1 := by
  intro fs f1 f2
  unfold calculateSimilarity
  cases h1 : fs f1 with
  | none => cases h2 : fs f2 <;> rfl
  | some c1 =>
    cases h2 : fs f2 with
    | none => rfl
    | some c2 =>
      by_cases hc : c1 = c2
      · subst hc; rfl
      · have hc2 : ¬ c2 = c1 := fun h => hc h.symm
        simp only [md5Model, if_neg hc, if_neg hc2]
        rw [Finset.inter_comm, Finset.union_comm]
        have e1 : ¬(lineSet c1 = ∅ ∨ lineSet c2 = ∅) := by
          simp [lineSet_nonempty c1, lineSet_nonempty c2]
        have e2 : ¬(lineSet c2 = ∅ ∨ lineSet c1 = ∅) := by
          simp [lineSet_nonempty c1, lineSet_nonempty c2]
        rw [if_neg e1, if_neg e2]

/-- Helper: for any record written by record_change, the status scan
reads an empty planned scope (the record stores the scope under
"files_planned" while the scan looks for "plan"), so every non-empty
change list is classified PLAN_VIOLATIONS. -/
theorem scanStatus_of_recordChange (cr plan : PyVal) (fc : Option (List String))
    (ts : String) (changed : List String) (hne : changed ≠ []) :
    scanGuardianStatus (some (recordChangeRecord cr plan fc ts)) changed =
      { status := "PLAN_VIOLATIONS",
        last_goal := (pyAsStr (pyDictGet cr "goal" (.str ""))).take 100,
        target_phases := pyAsStrList (pyDictGet cr "target_phases" (.list [])),
        planned_files_count := 0,
        extra_files_count := changed.toFinset.card } := by
  obtain ⟨x, hx⟩ := List.exists_mem_of_ne_nil changed hne
  have hplan : pyDictGet (recordChangeRecord cr plan fc ts) "plan" (.dict []) =
      .dict [] := by
    simp [recordChangeRecord, pyDictGet, List.find?]
  unfold scanGuardianStatus
  rw [if_neg hne]
  simp only [hplan]
  have hrec : pyAsStrList (pyDictGet (PyVal.dict []) "files_to_edit" (.list [])) = [] := by
    simp [pyDictGet, pyAsStrList]
  rw [hrec]
  have hgoal : pyDictGet (recordChangeRecord cr plan fc ts) "goal" (.str "") =
      pyDictGet cr "goal" (.str "") := by
    simp [recordChangeRecord, pyDictGet, List.find?]
  have hphases : pyDictGet (recordChangeRecord cr plan fc ts) "target_phases" (.list []) =
      pyDictGet cr "target_phases" (.list []) := by
    simp [recordChangeRecord, pyDictGet, List.find?]
  rw [hgoal, hphases]
  have hpos : 0 < (changed.toFinset \ (∅ : Finset String)).card := by
    rw [Finset.sdiff_empty]
    exact Finset.card_pos.mpr ⟨x, List.mem_toFinset.mpr hx⟩
  simp only [List.toFinset_nil, hpos, if_pos]
  simp [Finset.sdiff_empty, Finset.inter_empty]

set_option maxRecDepth 8000 in
/-- Claim C1: the status tracker as a pure function of the changed-file
set and the last record written by record_change.  The claim predicts
ON_TRACK when all changed files lie in the planned scope; the code
instead reads the planned scope from the key "plan"/"files_to_edit"
while record_change writes it under "files_planned", so the scope read
back is always empty and every non-empty change set is classified
PLAN_VIOLATIONS with planned_files_count 0.  In particular the
documented example (planned scope a.py and b.py, actual change a.py)
produces PLAN_VIOLATIONS, not ON_TRACK. -/
theorem c1_status_schema_mismatch :
    (∀ (cr plan : PyVal) (fc : Option (List String)) (ts : String)
       (changed : List String), changed ≠ [] →
      scanGuardianStatus (some (recordChangeRecord cr plan fc ts)) changed =
        { status := "PLAN_VIOLATIONS",
          last_goal := (pyAsStr (pyDictGet cr "goal" (.str ""))).take 100,
          target_phases := pyAsStrList (pyDictGet cr "target_phases" (.list [])),
          planned_files_count := 0,
          extra_files_count := changed.toFinset.card })
    ∧ (scanGuardianStatus
        (some (recordChangeRecord exChangeRequest exPlan none "2025-06-01")) ["a.py"] =
        { status := "PLAN_VIOLATIONS", last_goal := "Improve KPI",
          target_phases := ["01"], planned_files_count := 0,
          extra_files_count := 1 }) := by
  constructor
  · exact scanStatus_of_recordChange
  · rw [scanStatus_of_recordChange exChangeRequest exPlan none "2025-06-01"
      ["a.py"] (by simp)]
    with_unfolding_all decide

/-- Helper: a modify event arriving within DEBOUNCE_TIME of the last
update never fires an immediate scan: it leaves last_update and the
scan log unchanged and at most adds its message to the pending batch. -/
theorem stepMod_throttled (u : WatcherState) (e : TimedEvent) (path : String)
    (he : e.ev = .modified path false)
    (ht : e.time - u.last_update ≤ DEBOUNCE_TIME) :
    (stepWatcher u e).last_update = u.last_update ∧
    (stepWatcher u e).scan_results = u.scan_results ∧
    ((stepWatcher u e).pending_changes = u.pending_changes ∨
      (stepWatcher u e).pending_changes =
        insert (eventMsg "modified" path) u.pending_changes) := by
  obtain ⟨t, fs, ok, ev⟩ := e
  simp only at he
  subst he
  simp only [stepWatcher, onModified, if_false, Bool.false_eq_true]
  by_cases hw : shouldWatch path = true
  · rw [if_pos hw]
    by_cases hch : getFileHash fs path ≠ hashGet u.file_hashes path
    · rw [if_pos hch]
      simp only [queueUpdate]
      rw [if_neg (by simpa using not_lt.mpr ht)]
      exact ⟨rfl, rfl, Or.inr rfl⟩
    · rw [if_neg hch]
      exact ⟨rfl, rfl, Or.inl rfl⟩
  · rw [if_neg hw]
    exact ⟨rfl, rfl, Or.inl rfl⟩

/-- Helper: once the pending batch holds the (single) message of a path,
further modify events on that path arriving within DEBOUNCE_TIME of the
last update fire no scan and leave the batch at that single message. -/
theorem runMod_throttled (path : String) :
    ∀ (evs : List TimedEvent) (u : WatcherState),
      (∀ e ∈ evs, e.ev = .modified path false ∧
        e.time - u.last_update ≤ DEBOUNCE_TIME) →
      u.pending_changes = {eventMsg "modified" path} →
      (runWatcher u evs).last_update = u.last_update ∧
      (runWatcher u evs).scan_results = u.scan_results ∧
      (runWatcher u evs).pending_changes = {eventMsg "modified" path} := by
  intro evs
  induction evs with
  | nil => intro u _ hp; exact ⟨rfl, rfl, hp⟩
  | cons e rest ih =>
    intro u hall hp
    have he := hall e (by simp)
    have hstep := stepMod_throttled u e path he.1 he.2
    have hp1 : (stepWatcher u e).pending_changes = {eventMsg "modified" path} := by
      rcases hstep.2.2 with h | h
      · rw [h, hp]
      · rw [h, hp]; simp
    have hall1 : ∀ e2 ∈ rest, e2.ev = .modified path false ∧
        e2.time - (stepWatcher u e).last_update ≤ DEBOUNCE_TIME := by
      intro e2 h2
      have h3 := hall e2 (by simp [h2])
      rw [hstep.1]
      exact h3
    have hr := ih (stepWatcher u e) hall1 hp1
    have hrun : runWatcher u (e :: rest) = runWatcher (stepWatcher u e) rest := rfl
    exact ⟨by rw [hrun, hr.1, hstep.1], by rw [hrun, hr.2.1, hstep.2.1], by rw [hrun, hr.2.2]⟩

/-- Witness for claim C1: the general part applied at a concrete record
and a concrete non-empty change list. -/
theorem c1_status_schema_mismatch_witness :
    (scanGuardianStatus
      (some (recordChangeRecord exChangeRequest exPlan none "2025-06-01"))
      ["c.py"]).status = "PLAN_VIOLATIONS" := by
  have h := c1_status_schema_mismatch.1 exChangeRequest exPlan none
    "2025-06-01" ["c.py"] (by simp)
  rw [h]


/-- Claim C5: a modify event whose recomputed content digest equals the
digest already stored for that path is dropped: in every state the
transition is the identity, so it never produces a ScanTrigger. -/
theorem c5_noop_suppression :
    ∀ (s : WatcherState) (t : ℚ) (fs : FS) (ok : Bool) (path : String) (d : Bool),
      getFileHash fs path = hashGet s.file_hashes path →
      stepWatcher s ⟨t, fs, ok, .modified path d⟩ = s := by
  intro s t fs ok path d heq
  simp only [stepWatcher, onModified]
  split
  · rfl
  · split
    · rw [if_neg (by simp [heq])]
    · rfl

/-- Witness for claim C5: a rewrite of src/main.py with byte-identical
content (the stored digest already matches) changes nothing. -/
theorem c5_noop_suppression_witness :
    stepWatcher ⟨0, ∅, [("src/main.py", "h:v1")], []⟩
      ⟨1, fsV1, true, .modified "src/main.py" false⟩ =
      ⟨0, ∅, [("src/main.py", "h:v1")], []⟩ :=
  c5_noop_suppression ⟨0, ∅, [("src/main.py", "h:v1")], []⟩ 1 fsV1 true
    "src/main.py" false (by with_unfolding_all decide)

set_option maxRecDepth 8000 in
/-- Counterexample to claim C4: two content-changing modify events on
the same path at times 10 and 11, followed by the watch-loop flush at
11.5, all lie within one debounce window of the first event (10 to 12),
yet two ScanTriggers occur: the first event fires immediately (more
than DEBOUNCE_TIME since the last update at time 0) and the loop flush
fires the second without waiting for the window to elapse.  The claim
predicted exactly one trigger, no sooner than the window after the
first unflushed event. -/
theorem c4_counterexample :
    (runWatcher initWatcher
      [⟨10, fsV1, true, .modified "src/main.py" false⟩,
       ⟨11, fsV2, true, .modified "src/main.py" false⟩,
       ⟨23 / 2, fsV2, true, .flush⟩]).scan_results.length = 2 := by
  with_unfolding_all decide

/-- Claim C4, amended: when every one of the N modify events on a
watched path arrives within DEBOUNCE_TIME of the last performed update,
the events fire no scan themselves; they coalesce into a single pending
batch entry, and the next flush produces exactly one ScanTrigger (one
new scan attempt) and empties the batch.  (As the counterexample shows,
the unamended claim fails: an event arriving later than DEBOUNCE_TIME
after the last update triggers immediately, and the watch loop flushes
every second without waiting for the window.) -/
theorem c4_amended_throttled_coalescing :
    ∀ (s : WatcherState) (path : String) (e1 : TimedEvent)
      (rest : List TimedEvent) (tick : TimedEvent),
      s.pending_changes = ∅ →
      shouldWatch path = true →
      e1.ev = .modified path false →
      getFileHash e1.fs path ≠ hashGet s.file_hashes path →
      e1.time - s.last_update ≤ DEBOUNCE_TIME →
      (∀ e ∈ rest, e.ev = .modified path false ∧
        e.time - s.last_update ≤ DEBOUNCE_TIME) →
      tick.ev = .flush →
      (runWatcher s (e1 :: rest)).scan_results = s.scan_results ∧
      (runWatcher s (e1 :: rest)).pending_changes = {eventMsg "modified" path} ∧
      (stepWatcher (runWatcher s (e1 :: rest)) tick).scan_results =
        s.scan_results ++ [tick.scan_ok] ∧
      (stepWatcher (runWatcher s (e1 :: rest)) tick).pending_changes = ∅ := by
  intro s path e1 rest tick hp hw he1 hch ht1 hrest htick
  obtain ⟨t1, fs1, ok1, ev1⟩ := e1
  simp only at he1 hch ht1
  subst he1
  have hstep1 : stepWatcher s ⟨t1, fs1, ok1, .modified path false⟩ =
      { last_update := s.last_update,
        pending_changes := {eventMsg "modified" path},
        file_hashes := hashSet s.file_hashes path (getFileHash fs1 path),
        scan_results := s.scan_results } := by
    simp only [stepWatcher, onModified, if_false, Bool.false_eq_true]
    rw [if_pos hw, if_pos hch]
    simp only [queueUpdate]
    rw [if_neg (by simpa using not_lt.mpr ht1)]
    rw [hp]
    rfl
  have hrun : runWatcher s (⟨t1, fs1, ok1, .modified path false⟩ :: rest) =
      runWatcher (stepWatcher s ⟨t1, fs1, ok1, .modified path false⟩) rest := rfl
  rw [hrun, hstep1]
  have hr := runMod_throttled path rest
    { last_update := s.last_update,
      pending_changes := {eventMsg "modified" path},
      file_hashes := hashSet s.file_hashes path (getFileHash fs1 path),
      scan_results := s.scan_results }
    (by intro e hmem; exact hrest e hmem) rfl
  refine ⟨hr.2.1, hr.2.2, ?_, ?_⟩
  · obtain ⟨t2, fs2, ok2, ev2⟩ := tick
    simp only at htick
    subst htick
    simp only [stepWatcher, flushTick, doUpdate]
    rw [if_pos (by rw [hr.2.2]; simp [eventMsg]), if_neg (by rw [hr.2.2]; simp [eventMsg])]
    simp [hr.2.1]
  · obtain ⟨t2, fs2, ok2, ev2⟩ := tick
    simp only at htick
    subst htick
    simp only [stepWatcher, flushTick, doUpdate]
    rw [if_pos (by rw [hr.2.2]; simp [eventMsg]), if_neg (by rw [hr.2.2]; simp [eventMsg])]

/-- Witness for the amended claim C4: from a state whose last update was
at time 10, two modify events at times 11 and 11.5 coalesce and the
flush at time 12 performs exactly one scan. -/
theorem c4_amended_witness :
    (stepWatcher (runWatcher ⟨10, ∅, [], []⟩
      [⟨11, fsV1, true, .modified "src/main.py" false⟩,
       ⟨23 / 2, fsV2, true, .modified "src/main.py" false⟩])
      ⟨12, fsV2, true, .flush⟩).scan_results = [] ++ [true] := by
  have h := c4_amended_throttled_coalescing ⟨10, ∅, [], []⟩ "src/main.py"
    ⟨11, fsV1, true, .modified "src/main.py" false⟩
    [⟨23 / 2, fsV2, true, .modified "src/main.py" false⟩]
    ⟨12, fsV2, true, .flush⟩ rfl (by decide) rfl
    (by with_unfolding_all decide)
    (by with_unfolding_all decide)
    (by
      intro e hmem
      simp only [List.mem_singleton] at hmem
      subst hmem
      exact ⟨rfl, by with_unfolding_all decide⟩)
    rfl
  exact h.2.2.1

set_option maxRecDepth 8000 in
/-- Counterexample to claim C6: a modify event at time 10 triggers an
immediate scan that fails (the failure is caught and printed); the
pending batch was cleared before the attempt, and at the next timer
tick at time 13, when a scan would succeed, nothing is retried: the
log still shows the single failed attempt and the batch is empty.  The
claim predicted the batch kept and retried. -/
theorem c6_counterexample :
    (runWatcher initWatcher
      [⟨10, fsV1, false, .modified "src/main.py" false⟩,
       ⟨13, fsV2, true, .flush⟩]).scan_results = [false] ∧
    (runWatcher initWatcher
      [⟨10, fsV1, false, .modified "src/main.py" false⟩,
       ⟨13, fsV2, true, .flush⟩]).pending_changes = ∅ := by
  with_unfolding_all decide

/-- Claim C6, amended: when a flush attempts a scan that fails, the
error is caught and reported, but the pending batch has already been
cleared before the attempt; the failed batch is discarded, not
retried, and a subsequent timer tick with no new events performs no
scan (there is no retry counter in the code). -/
theorem c6_amended_failed_batch_discarded :
    ∀ (s : WatcherState) (now t2 : ℚ) (ok2 : Bool),
      s.pending_changes ≠ ∅ →
      doUpdate now false s =
        { last_update := now, pending_changes := ∅,
          file_hashes := s.file_hashes,
          scan_results := s.scan_results ++ [false] } ∧
      flushTick t2 ok2 (doUpdate now false s) = doUpdate now false s := by
  intro s now t2 ok2 hne
  obtain ⟨lu, pc, fh, sr⟩ := s
  simp only at hne
  constructor
  · simp only [doUpdate]
    rw [if_neg hne]
  · simp only [doUpdate, flushTick]
    rw [if_neg hne]
    simp

/-- Witness for the amended claim C6: a concrete non-empty batch whose
scan fails is cleared and the following tick rescans nothing. -/
theorem c6_amended_witness :
    flushTick 5 true (doUpdate 3 false ⟨0, {"modified: src/main.py"}, [], []⟩) =
      doUpdate 3 false ⟨0, {"modified: src/main.py"}, [], []⟩ :=
  (c6_amended_failed_batch_discarded ⟨0, {"modified: src/main.py"}, [], []⟩
    3 5 true (by decide)).2


/-- Lookup after overwrite at the same key. -/
theorem alGet_alSet_self {α : Type} (l : List (String × α)) (k : String) (v : α) :
    alGet (alSet l k v) k = some v := by
  induction l with
  | nil => simp [alSet, alGet]
  | cons kv rest ih =>
    obtain ⟨k0, v0⟩ := kv
    simp only [alSet]
    by_cases hk : k0 = k
    · subst hk; rw [if_pos rfl]; simp [alGet]
    · rw [if_neg hk]; simp only [alGet]; rw [if_neg hk]; exact ih

/-- Lookup after overwrite at another key. -/
theorem alGet_alSet_ne {α : Type} (l : List (String × α)) (k k2 : String) (v : α)
    (h : k2 ≠ k) : alGet (alSet l k v) k2 = alGet l k2 := by
  induction l with
  | nil =>
    simp only [alSet, alGet]
    rw [if_neg (fun hh => h hh.symm)]
  | cons kv rest ih =>
    obtain ⟨k0, v0⟩ := kv
    simp only [alSet]
    by_cases hk : k0 = k
    · subst hk
      rw [if_pos rfl]
      simp only [alGet]
      rw [if_neg (fun hh => h hh.symm), if_neg (fun hh => h hh.symm)]
    · rw [if_neg hk]
      simp only [alGet]
      by_cases hk2 : k0 = k2
      · rw [if_pos hk2, if_pos hk2]
      · rw [if_neg hk2, if_neg hk2, ih]

/-- The files dict after one paired insertion. -/
theorem files_insertEntry (cat p : String) (info : FileInfo) (st : ScanFilesState) :
    (insertEntry cat p info st).files = alSet st.files p info := rfl

/-- The buckets after one paired insertion: only the bucket named by the
insertion category changes. -/
theorem getBucket_insertEntry (cat c p : String) (info : FileInfo)
    (st : ScanFilesState) (hc : c ∈ CATEGORIES) :
    getBucket (insertEntry cat p info st) c =
      if cat = c then alSet (getBucket st c) p info else getBucket st c := by
  simp only [CATEGORIES, List.mem_cons, List.not_mem_nil, or_false] at hc
  rcases hc with rfl | rfl | rfl | rfl | rfl | rfl <;>
    simp [getBucket, insertEntry]

/-- A tree pass leaves paths that the tree does not contain untouched. -/
theorem treeFold_notMem (cond : TreeEntry → Option FileInfo → Bool) (cat : String)
    (mk : TreeEntry → FileInfo) :
    ∀ (tree : Tree) (st : ScanFilesState) (p : String),
      (∀ e ∈ tree, e.path ≠ p) →
      alGet (treeFold cond cat mk tree st).files p = alGet st.files p ∧
      ∀ c ∈ CATEGORIES,
        alGet (getBucket (treeFold cond cat mk tree st) c) p =
          alGet (getBucket st c) p := by
  intro tree
  induction tree with
  | nil => intro st p _; exact ⟨rfl, fun c _ => rfl⟩
  | cons e rest ih =>
    intro st p h
    have hne : e.path ≠ p := h e (by simp)
    have hrest : ∀ x ∈ rest, x.path ≠ p := fun x hx => h x (by simp [hx])
    have hfold : treeFold cond cat mk (e :: rest) st =
        treeFold cond cat mk rest
          (if cond e (alGet st.files e.path) then insertEntry cat e.path (mk e) st
           else st) := rfl
    rw [hfold]
    have ihr := ih (if cond e (alGet st.files e.path) then
      insertEntry cat e.path (mk e) st else st) p hrest
    constructor
    · rw [ihr.1]
      split
      · rw [files_insertEntry, alGet_alSet_ne _ _ _ _ (fun hh => hne hh.symm)]
      · rfl
    · intro c hc
      rw [ihr.2 c hc]
      split
      · rw [getBucket_insertEntry _ _ _ _ _ hc]
        split
        · rw [alGet_alSet_ne _ _ _ _ (fun hh => hne hh.symm)]
        · rfl
      · rfl

/-- Closed form of one tree pass at a path, for trees with distinct
paths: the entry owning the path decides whether its record is written,
and the bucket of the pass category mirrors the decision. -/
theorem treeFold_closed (cond : TreeEntry → Option FileInfo → Bool) (cat : String)
    (mk : TreeEntry → FileInfo) :
    ∀ (tree : Tree), (tree.map TreeEntry.path).Nodup →
    ∀ (st : ScanFilesState) (p : String),
      (alGet (treeFold cond cat mk tree st).files p =
        (match tree.find? (fun e => e.path == p) with
         | some e => if cond e (alGet st.files p) then some (mk e)
                     else alGet st.files p
         | none => alGet st.files p)) ∧
      (∀ c ∈ CATEGORIES,
        alGet (getBucket (treeFold cond cat mk tree st) c) p =
          (match tree.find? (fun e => e.path == p) with
           | some e => if cond e (alGet st.files p) && (cat == c) then some (mk e)
                       else alGet (getBucket st c) p
           | none => alGet (getBucket st c) p)) := by
  intro tree
  induction tree with
  | nil => intro _ st p; exact ⟨rfl, fun c _ => rfl⟩
  | cons e rest ih =>
    intro hnd st p
    have hnd2 : (rest.map TreeEntry.path).Nodup := (List.nodup_cons.mp hnd).2
    have hnotin : e.path ∉ rest.map TreeEntry.path := (List.nodup_cons.mp hnd).1
    have hfold : treeFold cond cat mk (e :: rest) st =
        treeFold cond cat mk rest
          (if cond e (alGet st.files e.path) then insertEntry cat e.path (mk e) st
           else st) := rfl
    by_cases hp : e.path = p
    · subst hp
      have hfind : (e :: rest).find? (fun x => x.path == e.path) = some e := by
        simp [List.find?_cons]
      rw [hfold, hfind]
      have hniltail : ∀ x ∈ rest, x.path ≠ e.path := by
        intro x hx hcontra
        exact hnotin (hcontra ▸ List.mem_map_of_mem TreeEntry.path hx)
      have hnm := treeFold_notMem cond cat mk rest
        (if cond e (alGet st.files e.path) then insertEntry cat e.path (mk e) st
         else st) e.path hniltail
      constructor
      · rw [hnm.1]
        by_cases hcond : cond e (alGet st.files e.path) = true
        · rw [if_pos hcond, files_insertEntry, alGet_alSet_self]
          exact (if_pos hcond).symm
        · rw [if_neg hcond]
          exact (if_neg hcond).symm
      · intro c hc
        rw [hnm.2 c hc]
        by_cases hcond : cond e (alGet st.files e.path) = true
        · rw [if_pos hcond, getBucket_insertEntry _ _ _ _ _ hc]
          by_cases hcc : cat = c
          · rw [if_pos hcc, alGet_alSet_self]
            have hb : (cond e (alGet st.files e.path) && (cat == c)) = true := by
              rw [hcond, hcc]; simp
            exact (if_pos hb).symm
          · rw [if_neg hcc]
            have hb : (cond e (alGet st.files e.path) && (cat == c)) = false := by
              rw [hcond]; simp [hcc]
            exact (if_neg (by simp [hb])).symm
        · rw [if_neg hcond]
          have hb : (cond e (alGet st.files e.path) && (cat == c)) = false := by
            simp only [Bool.not_eq_true] at hcond
            simp [hcond]
          exact (if_neg (by simp [hb])).symm
    · have hfind : (e :: rest).find? (fun x => x.path == p) =
          rest.find? (fun x => x.path == p) := by
        rw [List.find?_cons]
        have : (e.path == p) = false := by
          simp [hp]
        rw [this]
      rw [hfold, hfind]
      have hstep_files : alGet (if cond e (alGet st.files e.path) then
          insertEntry cat e.path (mk e) st else st).files p = alGet st.files p := by
        split
        · rw [files_insertEntry, alGet_alSet_ne _ _ _ _ (fun hh => hp hh.symm)]
        · rfl
      have hstep_bucket : ∀ c ∈ CATEGORIES,
          alGet (getBucket (if cond e (alGet st.files e.path) then
            insertEntry cat e.path (mk e) st else st) c) p =
            alGet (getBucket st c) p := by
        intro c hc
        split
        · rw [getBucket_insertEntry _ _ _ _ _ hc]
          split
          · rw [alGet_alSet_ne _ _ _ _ (fun hh => hp hh.symm)]
          · rfl
        · rfl
      have ihr := ih hnd2
        (if cond e (alGet st.files e.path) then insertEntry cat e.path (mk e) st
         else st) p
      constructor
      · rw [ihr.1]
        cases hf : rest.find? (fun x => x.path == p) with
        | none => exact hstep_files
        | some e2 => rw [hstep_files]
      · intro c hc
        rw [ihr.2 c hc]
        cases hf : rest.find? (fun x => x.path == p) with
        | none => exact hstep_bucket c hc
        | some e2 =>
          rw [hstep_files, hstep_bucket c hc]


/-- Unfolding of matchesAny over a cons of extensions. -/
theorem matchesAny_cons (ext : String) (exts : List String) (pth : String) :
    matchesAny (ext :: exts) pth = (extMatches ext pth || matchesAny exts pth) := by
  simp [matchesAny]

/-- Closed form of one extension-grouped pass at a path, for trees with
distinct paths. -/
theorem extPhase_closed (checkMember : Bool) (cat : String) (mk : TreeEntry → FileInfo) :
    ∀ (exts : List String) (tree : Tree), (tree.map TreeEntry.path).Nodup →
    ∀ (st : ScanFilesState) (p : String),
      (alGet (extPhase checkMember exts cat mk tree st).files p =
        (match tree.find? (fun e => e.path == p) with
         | some e =>
            if matchesAny exts e.path && !isSkipped e.path &&
                (!checkMember || !(alGet st.files p).isSome) then some (mk e)
            else alGet st.files p
         | none => alGet st.files p)) ∧
      (∀ c ∈ CATEGORIES,
        alGet (getBucket (extPhase checkMember exts cat mk tree st) c) p =
          (match tree.find? (fun e => e.path == p) with
           | some e =>
              if (matchesAny exts e.path && !isSkipped e.path &&
                  (!checkMember || !(alGet st.files p).isSome)) && (cat == c)
              then some (mk e)
              else alGet (getBucket st c) p
           | none => alGet (getBucket st c) p)) := by
  intro exts
  induction exts with
  | nil =>
    intro tree hnd st p
    constructor
    · cases hf : tree.find? (fun e => e.path == p) with
      | none => rfl
      | some e => exact (if_neg (by simp [matchesAny])).symm
    · intro c hc
      cases hf : tree.find? (fun e => e.path == p) with
      | none => rfl
      | some e => exact (if_neg (by simp [matchesAny])).symm
  | cons ext exts ih =>
    intro tree hnd st p
    have hstep : extPhase checkMember (ext :: exts) cat mk tree st =
        extPhase checkMember exts cat mk tree
          (treeFold (fun e v =>
            extMatches ext e.path && !isSkipped e.path && (!checkMember || !v.isSome))
            cat mk tree st) := rfl
    have h1 := treeFold_closed (fun e v =>
        extMatches ext e.path && !isSkipped e.path && (!checkMember || !v.isSome))
      cat mk tree hnd st p
    have ihr := ih tree hnd
      (treeFold (fun e v =>
        extMatches ext e.path && !isSkipped e.path && (!checkMember || !v.isSome))
        cat mk tree st) p
    cases hf : tree.find? (fun e => e.path == p) with
    | none =>
      have hA1 : alGet (treeFold (fun e v =>
          extMatches ext e.path && !isSkipped e.path && (!checkMember || !v.isSome))
          cat mk tree st).files p = alGet st.files p := by
        have h := h1.1; rw [hf] at h; exact h
      constructor
      · have h := ihr.1
        rw [hf] at h
        rw [hstep, h, hA1]
      · intro c hc
        have h := ihr.2 c hc
        rw [hf] at h
        have hB1 : alGet (getBucket (treeFold (fun e v =>
            extMatches ext e.path && !isSkipped e.path && (!checkMember || !v.isSome))
            cat mk tree st) c) p = alGet (getBucket st c) p := by
          have h2 := h1.2 c hc; rw [hf] at h2; exact h2
        rw [hstep, h, hB1]
    | some e =>
      have hA1 : alGet (treeFold (fun e v =>
          extMatches ext e.path && !isSkipped e.path && (!checkMember || !v.isSome))
          cat mk tree st).files p =
          (if extMatches ext e.path && !isSkipped e.path &&
              (!checkMember || !(alGet st.files p).isSome) then some (mk e)
           else alGet st.files p) := by
        have h := h1.1; rw [hf] at h; exact h
      constructor
      · have h2 : alGet (extPhase checkMember exts cat mk tree
            (treeFold (fun e v =>
              extMatches ext e.path && !isSkipped e.path && (!checkMember || !v.isSome))
              cat mk tree st)).files p =
            (if matchesAny exts e.path && !isSkipped e.path &&
                (!checkMember ||
                  !(alGet (treeFold (fun e v =>
                    extMatches ext e.path && !isSkipped e.path &&
                      (!checkMember || !v.isSome)) cat mk tree st).files p).isSome)
             then some (mk e)
             else alGet (treeFold (fun e v =>
               extMatches ext e.path && !isSkipped e.path && (!checkMember || !v.isSome))
               cat mk tree st).files p) := by
          have h := ihr.1; rw [hf] at h; exact h
        show alGet (extPhase checkMember (ext :: exts) cat mk tree st).files p =
          if matchesAny (ext :: exts) e.path && !isSkipped e.path &&
              (!checkMember || !(alGet st.files p).isSome) then some (mk e)
          else alGet st.files p
        rw [hstep, h2, hA1, matchesAny_cons]
        cases hm1 : extMatches ext e.path <;>
          cases hm2 : matchesAny exts e.path <;>
          cases hsk : isSkipped e.path <;>
          cases hcm : checkMember <;>
          cases hA : alGet st.files p <;> simp
      · intro c hc
        have h2 : alGet (getBucket (extPhase checkMember exts cat mk tree
            (treeFold (fun e v =>
              extMatches ext e.path && !isSkipped e.path && (!checkMember || !v.isSome))
              cat mk tree st)) c) p =
            (if (matchesAny exts e.path && !isSkipped e.path &&
                (!checkMember ||
                  !(alGet (treeFold (fun e v =>
                    extMatches ext e.path && !isSkipped e.path &&
                      (!checkMember || !v.isSome)) cat mk tree st).files p).isSome)) &&
                (cat == c)
             then some (mk e)
             else alGet (getBucket (treeFold (fun e v =>
               extMatches ext e.path && !isSkipped e.path && (!checkMember || !v.isSome))
               cat mk tree st) c) p) := by
          have h := ihr.2 c hc; rw [hf] at h; exact h
        have hB1 : alGet (getBucket (treeFold (fun e v =>
            extMatches ext e.path && !isSkipped e.path && (!checkMember || !v.isSome))
            cat mk tree st) c) p =
            (if (extMatches ext e.path && !isSkipped e.path &&
                (!checkMember || !(alGet st.files p).isSome)) && (cat == c)
             then some (mk e)
             else alGet (getBucket st c) p) := by
          have h3 := h1.2 c hc; rw [hf] at h3; exact h3
        show alGet (getBucket (extPhase checkMember (ext :: exts) cat mk tree st) c) p =
          if (matchesAny (ext :: exts) e.path && !isSkipped e.path &&
              (!checkMember || !(alGet st.files p).isSome)) && (cat == c)
          then some (mk e)
          else alGet (getBucket st c) p
        rw [hstep, h2, hA1, hB1, matchesAny_cons]
        cases hm1 : extMatches ext e.path <;>
          cases hm2 : matchesAny exts e.path <;>
          cases hsk : isSkipped e.path <;>
          cases hcm : checkMember <;>
          cases hcc : (cat == c) <;>
          cases hA : alGet st.files p <;> simp


/-- Two suffix-free extension groups cannot both match one path: both
matching extensions would be suffixes of the same file name and hence
one a suffix of the other. -/
theorem matchesAny_excl {xs ys : List String} (hfree : suffixFreePair xs ys = true)
    {p : String} (hx : matchesAny xs p = true) (hy : matchesAny ys p = true) :
    False := by
  simp only [matchesAny, List.any_eq_true] at hx hy
  obtain ⟨a, ha, hma⟩ := hx
  obtain ⟨b, hb, hmb⟩ := hy
  simp only [extMatches, List.isSuffixOf_iff_suffix] at hma hmb
  have hcomp := List.suffix_or_suffix_of_suffix hma hmb
  simp only [suffixFreePair, List.all_eq_true, Bool.and_eq_true,
    Bool.not_eq_true'] at hfree
  have hab := hfree a ha b hb
  rcases hcomp with h | h
  · have hs : a.toList.isSuffixOf b.toList = true := List.isSuffixOf_iff_suffix.mpr h
    rw [hab.1] at hs
    exact Bool.false_ne_true hs
  · have hs : b.toList.isSuffixOf a.toList = true := List.isSuffixOf_iff_suffix.mpr h
    rw [hab.2] at hs
    exact Bool.false_ne_true hs

/-- When a path matches a group, it matches no group suffix-free with it. -/
theorem matchesAny_false_of (xs ys : List String)
    (hfree : suffixFreePair xs ys = true) (p : String)
    (h : matchesAny xs p = true) : matchesAny ys p = false := by
  cases hy : matchesAny ys p with
  | false => rfl
  | true => exact (matchesAny_excl hfree h hy).elim

/-- Lookup in the buckets of a fresh scan state. -/
theorem alGet_getBucket_empty (c p : String) :
    alGet (getBucket emptyScan c) p = none := by
  simp [getBucket, emptyScan, alGet]

set_option maxRecDepth 8000 in
/-- Pointwise characterization of _scan_files with scan_all, for trees
with distinct paths: the files dict holds exactly the record
fileInfoFor computes from the entry owning the path, and each bucket
holds exactly the files of its category. -/
theorem scanFiles_lookup (P : Parsers) (tree : Tree)
    (hnd : (tree.map TreeEntry.path).Nodup) (p : String) :
    (alGet (scanFiles P true tree).files p =
      (match tree.find? (fun e => e.path == p) with
       | some e => fileInfoFor P e
       | none => none)) ∧
    (∀ c ∈ CATEGORIES,
      alGet (getBucket (scanFiles P true tree) c) p =
        (match tree.find? (fun e => e.path == p) with
         | some e =>
            (match fileInfoFor P e with
             | some info => if info.category = c then some info else none
             | none => none)
         | none => none)) := by
  have hscan : scanFiles P true tree =
      (treeFold (fun e v => e.isFile && !isSkipped e.path && !v.isSome) "other" otherInfo tree
      (extPhase true DATA_EXTENSIONS "data" (fun _ => dataInfo) tree
      (extPhase false STYLE_EXTENSIONS "styles" (fun _ => stylesInfo) tree
      (extPhase false DOC_EXTENSIONS "docs" (fun _ => docsInfo) tree
      (extPhase false CONFIG_EXTENSIONS "config" configInfo tree
      (extPhase false CODE_EXTENSIONS "code" (codeInfo P) tree emptyScan)))))) := rfl
  cases hf : tree.find? (fun e => e.path == p) with
  | none =>
    have hA1 : alGet (extPhase false CODE_EXTENSIONS "code" (codeInfo P) tree emptyScan).files p = none := by
      have h := (extPhase_closed false "code" (codeInfo P) CODE_EXTENSIONS tree hnd
        emptyScan p).1
      rw [hf] at h
      simpa [emptyScan, alGet] using h
    have hA2 : alGet (extPhase false CONFIG_EXTENSIONS "config" configInfo tree
      (extPhase false CODE_EXTENSIONS "code" (codeInfo P) tree emptyScan)).files p = none := by
      have h := (extPhase_closed false "config" configInfo CONFIG_EXTENSIONS tree hnd
        (extPhase false CODE_EXTENSIONS "code" (codeInfo P) tree emptyScan) p).1
      rw [hf] at h
      rw [h, hA1]
    have hA3 : alGet (extPhase false DOC_EXTENSIONS "docs" (fun _ => docsInfo) tree
      (extPhase false CONFIG_EXTENSIONS "config" configInfo tree
      (extPhase false CODE_EXTENSIONS "code" (codeInfo P) tree emptyScan))).files p = none := by
      have h := (extPhase_closed false "docs" (fun _ => docsInfo) DOC_EXTENSIONS tree hnd
        (extPhase false CONFIG_EXTENSIONS "config" configInfo tree
      (extPhase false CODE_EXTENSIONS "code" (codeInfo P) tree emptyScan)) p).1
      rw [hf] at h
      rw [h, hA2]
    have hA4 : alGet (extPhase false STYLE_EXTENSIONS "styles" (fun _ => stylesInfo) tree
      (extPhase false DOC_EXTENSIONS "docs" (fun _ => docsInfo) tree
      (extPhase false CONFIG_EXTENSIONS "config" configInfo tree
      (extPhase false CODE_EXTENSIONS "code" (codeInfo P) tree emptyScan)))).files p = none := by
      have h := (extPhase_closed false "styles" (fun _ => stylesInfo) STYLE_EXTENSIONS tree hnd
        (extPhase false DOC_EXTENSIONS "docs" (fun _ => docsInfo) tree
      (extPhase false CONFIG_EXTENSIONS "config" configInfo tree
      (extPhase false CODE_EXTENSIONS "code" (codeInfo P) tree emptyScan))) p).1
      rw [hf] at h
      rw [h, hA3]
    have hA5 : alGet (extPhase true DATA_EXTENSIONS "data" (fun _ => dataInfo) tree
      (extPhase false STYLE_EXTENSIONS "styles" (fun _ => stylesInfo) tree
      (extPhase false DOC_EXTENSIONS "docs" (fun _ => docsInfo) tree
      (extPhase false CONFIG_EXTENSIONS "config" configInfo tree
      (extPhase false CODE_EXTENSIONS "code" (codeInfo P) tree emptyScan))))).files p = none := by
      have h := (extPhase_closed true "data" (fun _ => dataInfo) DATA_EXTENSIONS tree hnd
        (extPhase false STYLE_EXTENSIONS "styles" (fun _ => stylesInfo) tree
      (extPhase false DOC_EXTENSIONS "docs" (fun _ => docsInfo) tree
      (extPhase false CONFIG_EXTENSIONS "config" configInfo tree
      (extPhase false CODE_EXTENSIONS "code" (codeInfo P) tree emptyScan)))) p).1
      rw [hf] at h
      rw [h, hA4]
    have hA6 : alGet (treeFold (fun e v => e.isFile && !isSkipped e.path && !v.isSome) "other" otherInfo tree
      (extPhase true DATA_EXTENSIONS "data" (fun _ => dataInfo) tree
      (extPhase false STYLE_EXTENSIONS "styles" (fun _ => stylesInfo) tree
      (extPhase false DOC_EXTENSIONS "docs" (fun _ => docsInfo) tree
      (extPhase false CONFIG_EXTENSIONS "config" configInfo tree
      (extPhase false CODE_EXTENSIONS "code" (codeInfo P) tree emptyScan)))))).files p = none := by
      have h := (treeFold_closed (fun e v => e.isFile && !isSkipped e.path && !v.isSome)
        "other" otherInfo tree hnd (extPhase true DATA_EXTENSIONS "data" (fun _ => dataInfo) tree
      (extPhase false STYLE_EXTENSIONS "styles" (fun _ => stylesInfo) tree
      (extPhase false DOC_EXTENSIONS "docs" (fun _ => docsInfo) tree
      (extPhase false CONFIG_EXTENSIONS "config" configInfo tree
      (extPhase false CODE_EXTENSIONS "code" (codeInfo P) tree emptyScan))))) p).1
      rw [hf] at h
      rw [h, hA5]
    constructor
    · rw [hscan, hA6]
    · intro c hc
      have hB1 : alGet (getBucket (extPhase false CODE_EXTENSIONS "code" (codeInfo P) tree emptyScan) c) p = none := by
        have h := (extPhase_closed false "code" (codeInfo P) CODE_EXTENSIONS tree hnd
          emptyScan p).2 c hc
        rw [hf] at h
        rw [h, alGet_getBucket_empty]
      have hB2 : alGet (getBucket (extPhase false CONFIG_EXTENSIONS "config" configInfo tree
      (extPhase false CODE_EXTENSIONS "code" (codeInfo P) tree emptyScan)) c) p = none := by
        have h := (extPhase_closed false "config" configInfo CONFIG_EXTENSIONS tree hnd
          (extPhase false CODE_EXTENSIONS "code" (codeInfo P) tree emptyScan) p).2 c hc
        rw [hf] at h
        rw [h, hB1]
      have hB3 : alGet (getBucket (extPhase false DOC_EXTENSIONS "docs" (fun _ => docsInfo) tree
      (extPhase false CONFIG_EXTENSIONS "config" configInfo tree
      (extPhase false CODE_EXTENSIONS "code" (codeInfo P) tree emptyScan))) c) p = none := by
        have h := (extPhase_closed false "docs" (fun _ => docsInfo) DOC_EXTENSIONS tree hnd
          (extPhase false CONFIG_EXTENSIONS "config" configInfo tree
      (extPhase false CODE_EXTENSIONS "code" (codeInfo P) tree emptyScan)) p).2 c hc
        rw [hf] at h
        rw [h, hB2]
      have hB4 : alGet (getBucket (extPhase false STYLE_EXTENSIONS "styles" (fun _ => stylesInfo) tree
      (extPhase false DOC_EXTENSIONS "docs" (fun _ => docsInfo) tree
      (extPhase false CONFIG_EXTENSIONS "config" configInfo tree
      (extPhase false CODE_EXTENSIONS "code" (codeInfo P) tree emptyScan)))) c) p = none := by
        have h := (extPhase_closed false "styles" (fun _ => stylesInfo) STYLE_EXTENSIONS tree hnd
          (extPhase false DOC_EXTENSIONS "docs" (fun _ => docsInfo) tree
      (extPhase false CONFIG_EXTENSIONS "config" configInfo tree
      (extPhase false CODE_EXTENSIONS "code" (codeInfo P) tree emptyScan))) p).2 c hc
        rw [hf] at h
        rw [h, hB3]
      have hB5 : alGet (getBucket (extPhase true DATA_EXTENSIONS "data" (fun _ => dataInfo) tree
      (extPhase false STYLE_EXTENSIONS "styles" (fun _ => stylesInfo) tree
      (extPhase false DOC_EXTENSIONS "docs" (fun _ => docsInfo) tree
      (extPhase false CONFIG_EXTENSIONS "config" configInfo tree
      (extPhase false CODE_EXTENSIONS "code" (codeInfo P) tree emptyScan))))) c) p = none := by
        have h := (extPhase_closed true "data" (fun _ => dataInfo) DATA_EXTENSIONS tree hnd
          (extPhase false STYLE_EXTENSIONS "styles" (fun _ => stylesInfo) tree
      (extPhase false DOC_EXTENSIONS "docs" (fun _ => docsInfo) tree
      (extPhase false CONFIG_EXTENSIONS "config" configInfo tree
      (extPhase false CODE_EXTENSIONS "code" (codeInfo P) tree emptyScan)))) p).2 c hc
        rw [hf] at h
        rw [h, hB4]
      have hB6 : alGet (getBucket (treeFold (fun e v => e.isFile && !isSkipped e.path && !v.isSome) "other" otherInfo tree
      (extPhase true DATA_EXTENSIONS "data" (fun _ => dataInfo) tree
      (extPhase false STYLE_EXTENSIONS "styles" (fun _ => stylesInfo) tree
      (extPhase false DOC_EXTENSIONS "docs" (fun _ => docsInfo) tree
      (extPhase false CONFIG_EXTENSIONS "config" configInfo tree
      (extPhase false CODE_EXTENSIONS "code" (codeInfo P) tree emptyScan)))))) c) p = none := by
        have h := (treeFold_closed (fun e v => e.isFile && !isSkipped e.path && !v.isSome)
          "other" otherInfo tree hnd (extPhase true DATA_EXTENSIONS "data" (fun _ => dataInfo) tree
      (extPhase false STYLE_EXTENSIONS "styles" (fun _ => stylesInfo) tree
      (extPhase false DOC_EXTENSIONS "docs" (fun _ => docsInfo) tree
      (extPhase false CONFIG_EXTENSIONS "config" configInfo tree
      (extPhase false CODE_EXTENSIONS "code" (codeInfo P) tree emptyScan))))) p).2 c hc
        rw [hf] at h
        rw [h, hB5]
      rw [hscan, hB6]
  | some e =>
    have hA1 : alGet (extPhase false CODE_EXTENSIONS "code" (codeInfo P) tree emptyScan).files p =
        (if matchesAny CODE_EXTENSIONS e.path && !isSkipped e.path
         then some (codeInfo P e) else none) := by
      have h := (extPhase_closed false "code" (codeInfo P) CODE_EXTENSIONS tree hnd
        emptyScan p).1
      rw [hf] at h
      simpa [emptyScan, alGet] using h
    have hA2 : alGet (extPhase false CONFIG_EXTENSIONS "config" configInfo tree
      (extPhase false CODE_EXTENSIONS "code" (codeInfo P) tree emptyScan)).files p =
        (if matchesAny CONFIG_EXTENSIONS e.path && !isSkipped e.path
         then some (configInfo e) else alGet (extPhase false CODE_EXTENSIONS "code" (codeInfo P) tree emptyScan).files p) := by
      have h := (extPhase_closed false "config" configInfo CONFIG_EXTENSIONS tree hnd
        (extPhase false CODE_EXTENSIONS "code" (codeInfo P) tree emptyScan) p).1
      rw [hf] at h
      simpa using h
    have hA3 : alGet (extPhase false DOC_EXTENSIONS "docs" (fun _ => docsInfo) tree
      (extPhase false CONFIG_EXTENSIONS "config" configInfo tree
      (extPhase false CODE_EXTENSIONS "code" (codeInfo P) tree emptyScan))).files p =
        (if matchesAny DOC_EXTENSIONS e.path && !isSkipped e.path
         then some docsInfo else alGet (extPhase false CONFIG_EXTENSIONS "config" configInfo tree
      (extPhase false CODE_EXTENSIONS "code" (codeInfo P) tree emptyScan)).files p) := by
      have h := (extPhase_closed false "docs" (fun _ => docsInfo) DOC_EXTENSIONS tree hnd
        (extPhase false CONFIG_EXTENSIONS "config" configInfo tree
      (extPhase false CODE_EXTENSIONS "code" (codeInfo P) tree emptyScan)) p).1
      rw [hf] at h
      simpa using h
    have hA4 : alGet (extPhase false STYLE_EXTENSIONS "styles" (fun _ => stylesInfo) tree
      (extPhase false DOC_EXTENSIONS "docs" (fun _ => docsInfo) tree
      (extPhase false CONFIG_EXTENSIONS "config" configInfo tree
      (extPhase false CODE_EXTENSIONS "code" (codeInfo P) tree emptyScan)))).files p =
        (if matchesAny STYLE_EXTENSIONS e.path && !isSkipped e.path
         then some stylesInfo else alGet (extPhase false DOC_EXTENSIONS "docs" (fun _ => docsInfo) tree
      (extPhase false CONFIG_EXTENSIONS "config" configInfo tree
      (extPhase false CODE_EXTENSIONS "code" (codeInfo P) tree emptyScan))).files p) := by
      have h := (extPhase_closed false "styles" (fun _ => stylesInfo) STYLE_EXTENSIONS tree hnd
        (extPhase false DOC_EXTENSIONS "docs" (fun _ => docsInfo) tree
      (extPhase false CONFIG_EXTENSIONS "config" configInfo tree
      (extPhase false CODE_EXTENSIONS "code" (codeInfo P) tree emptyScan))) p).1
      rw [hf] at h
      simpa using h
    have hA5 : alGet (extPhase true DATA_EXTENSIONS "data" (fun _ => dataInfo) tree
      (extPhase false STYLE_EXTENSIONS "styles" (fun _ => stylesInfo) tree
      (extPhase false DOC_EXTENSIONS "docs" (fun _ => docsInfo) tree
      (extPhase false CONFIG_EXTENSIONS "config" configInfo tree
      (extPhase false CODE_EXTENSIONS "code" (codeInfo P) tree emptyScan))))).files p =
        (if matchesAny DATA_EXTENSIONS e.path && !isSkipped e.path &&
            !(alGet (extPhase false STYLE_EXTENSIONS "styles" (fun _ => stylesInfo) tree
      (extPhase false DOC_EXTENSIONS "docs" (fun _ => docsInfo) tree
      (extPhase false CONFIG_EXTENSIONS "config" configInfo tree
      (extPhase false CODE_EXTENSIONS "code" (codeInfo P) tree emptyScan)))).files p).isSome
         then some dataInfo else alGet (extPhase false STYLE_EXTENSIONS "styles" (fun _ => stylesInfo) tree
      (extPhase false DOC_EXTENSIONS "docs" (fun _ => docsInfo) tree
      (extPhase false CONFIG_EXTENSIONS "config" configInfo tree
      (extPhase false CODE_EXTENSIONS "code" (codeInfo P) tree emptyScan)))).files p) := by
      have h := (extPhase_closed true "data" (fun _ => dataInfo) DATA_EXTENSIONS tree hnd
        (extPhase false STYLE_EXTENSIONS "styles" (fun _ => stylesInfo) tree
      (extPhase false DOC_EXTENSIONS "docs" (fun _ => docsInfo) tree
      (extPhase false CONFIG_EXTENSIONS "config" configInfo tree
      (extPhase false CODE_EXTENSIONS "code" (codeInfo P) tree emptyScan)))) p).1
      rw [hf] at h
      simpa using h
    have hA6 : alGet (treeFold (fun e v => e.isFile && !isSkipped e.path && !v.isSome) "other" otherInfo tree
      (extPhase true DATA_EXTENSIONS "data" (fun _ => dataInfo) tree
      (extPhase false STYLE_EXTENSIONS "styles" (fun _ => stylesInfo) tree
      (extPhase false DOC_EXTENSIONS "docs" (fun _ => docsInfo) tree
      (extPhase false CONFIG_EXTENSIONS "config" configInfo tree
      (extPhase false CODE_EXTENSIONS "code" (codeInfo P) tree emptyScan)))))).files p =
        (if e.isFile && !isSkipped e.path && !(alGet (extPhase true DATA_EXTENSIONS "data" (fun _ => dataInfo) tree
      (extPhase false STYLE_EXTENSIONS "styles" (fun _ => stylesInfo) tree
      (extPhase false DOC_EXTENSIONS "docs" (fun _ => docsInfo) tree
      (extPhase false CONFIG_EXTENSIONS "config" configInfo tree
      (extPhase false CODE_EXTENSIONS "code" (codeInfo P) tree emptyScan))))).files p).isSome
         then some (otherInfo e) else alGet (extPhase true DATA_EXTENSIONS "data" (fun _ => dataInfo) tree
      (extPhase false STYLE_EXTENSIONS "styles" (fun _ => stylesInfo) tree
      (extPhase false DOC_EXTENSIONS "docs" (fun _ => docsInfo) tree
      (extPhase false CONFIG_EXTENSIONS "config" configInfo tree
      (extPhase false CODE_EXTENSIONS "code" (codeInfo P) tree emptyScan))))).files p) := by
      have h := (treeFold_closed (fun e v => e.isFile && !isSkipped e.path && !v.isSome)
        "other" otherInfo tree hnd (extPhase true DATA_EXTENSIONS "data" (fun _ => dataInfo) tree
      (extPhase false STYLE_EXTENSIONS "styles" (fun _ => stylesInfo) tree
      (extPhase false DOC_EXTENSIONS "docs" (fun _ => docsInfo) tree
      (extPhase false CONFIG_EXTENSIONS "config" configInfo tree
      (extPhase false CODE_EXTENSIONS "code" (codeInfo P) tree emptyScan))))) p).1
      rw [hf] at h
      exact h
    have hBs : ∀ c ∈ CATEGORIES,
        alGet (getBucket (treeFold (fun e v => e.isFile && !isSkipped e.path && !v.isSome) "other" otherInfo tree
      (extPhase true DATA_EXTENSIONS "data" (fun _ => dataInfo) tree
      (extPhase false STYLE_EXTENSIONS "styles" (fun _ => stylesInfo) tree
      (extPhase false DOC_EXTENSIONS "docs" (fun _ => docsInfo) tree
      (extPhase false CONFIG_EXTENSIONS "config" configInfo tree
      (extPhase false CODE_EXTENSIONS "code" (codeInfo P) tree emptyScan)))))) c) p =
          (if (e.isFile && !isSkipped e.path && !(alGet (extPhase true DATA_EXTENSIONS "data" (fun _ => dataInfo) tree
      (extPhase false STYLE_EXTENSIONS "styles" (fun _ => stylesInfo) tree
      (extPhase false DOC_EXTENSIONS "docs" (fun _ => docsInfo) tree
      (extPhase false CONFIG_EXTENSIONS "config" configInfo tree
      (extPhase false CODE_EXTENSIONS "code" (codeInfo P) tree emptyScan))))).files p).isSome) &&
              ("other" == c) then some (otherInfo e)
           else if (matchesAny DATA_EXTENSIONS e.path && !isSkipped e.path &&
              !(alGet (extPhase false STYLE_EXTENSIONS "styles" (fun _ => stylesInfo) tree
      (extPhase false DOC_EXTENSIONS "docs" (fun _ => docsInfo) tree
      (extPhase false CONFIG_EXTENSIONS "config" configInfo tree
      (extPhase false CODE_EXTENSIONS "code" (codeInfo P) tree emptyScan)))).files p).isSome) && ("data" == c) then some dataInfo
           else if (matchesAny STYLE_EXTENSIONS e.path && !isSkipped e.path) &&
              ("styles" == c) then some stylesInfo
           else if (matchesAny DOC_EXTENSIONS e.path && !isSkipped e.path) &&
              ("docs" == c) then some docsInfo
           else if (matchesAny CONFIG_EXTENSIONS e.path && !isSkipped e.path) &&
              ("config" == c) then some (configInfo e)
           else if (matchesAny CODE_EXTENSIONS e.path && !isSkipped e.path) &&
              ("code" == c) then some (codeInfo P e)
           else none) := by
      intro c hc
      have hB1 : alGet (getBucket (extPhase false CODE_EXTENSIONS "code" (codeInfo P) tree emptyScan) c) p =
          (if (matchesAny CODE_EXTENSIONS e.path && !isSkipped e.path) && ("code" == c)
           then some (codeInfo P e) else none) := by
        have h := (extPhase_closed false "code" (codeInfo P) CODE_EXTENSIONS tree hnd
          emptyScan p).2 c hc
        rw [hf] at h
        simpa [alGet_getBucket_empty] using h
      have hB2 : alGet (getBucket (extPhase false CONFIG_EXTENSIONS "config" configInfo tree
      (extPhase false CODE_EXTENSIONS "code" (codeInfo P) tree emptyScan)) c) p =
          (if (matchesAny CONFIG_EXTENSIONS e.path && !isSkipped e.path) && ("config" == c)
           then some (configInfo e) else alGet (getBucket (extPhase false CODE_EXTENSIONS "code" (codeInfo P) tree emptyScan) c) p) := by
        have h := (extPhase_closed false "config" configInfo CONFIG_EXTENSIONS tree hnd
          (extPhase false CODE_EXTENSIONS "code" (codeInfo P) tree emptyScan) p).2 c hc
        rw [hf] at h
        simpa using h
      have hB3 : alGet (getBucket (extPhase false DOC_EXTENSIONS "docs" (fun _ => docsInfo) tree
      (extPhase false CONFIG_EXTENSIONS "config" configInfo tree
      (extPhase false CODE_EXTENSIONS "code" (codeInfo P) tree emptyScan))) c) p =
          (if (matchesAny DOC_EXTENSIONS e.path && !isSkipped e.path) && ("docs" == c)
           then some docsInfo else alGet (getBucket (extPhase false CONFIG_EXTENSIONS "config" configInfo tree
      (extPhase false CODE_EXTENSIONS "code" (codeInfo P) tree emptyScan)) c) p) := by
        have h := (extPhase_closed false "docs" (fun _ => docsInfo) DOC_EXTENSIONS tree hnd
          (extPhase false CONFIG_EXTENSIONS "config" configInfo tree
      (extPhase false CODE_EXTENSIONS "code" (codeInfo P) tree emptyScan)) p).2 c hc
        rw [hf] at h
        simpa using h
      have hB4 : alGet (getBucket (extPhase false STYLE_EXTENSIONS "styles" (fun _ => stylesInfo) tree
      (extPhase false DOC_EXTENSIONS "docs" (fun _ => docsInfo) tree
      (extPhase false CONFIG_EXTENSIONS "config" configInfo tree
      (extPhase false CODE_EXTENSIONS "code" (codeInfo P) tree emptyScan)))) c) p =
          (if (matchesAny STYLE_EXTENSIONS e.path && !isSkipped e.path) && ("styles" == c)
           then some stylesInfo else alGet (getBucket (extPhase false DOC_EXTENSIONS "docs" (fun _ => docsInfo) tree
      (extPhase false CONFIG_EXTENSIONS "config" configInfo tree
      (extPhase false CODE_EXTENSIONS "code" (codeInfo P) tree emptyScan))) c) p) := by
        have h := (extPhase_closed false "styles" (fun _ => stylesInfo) STYLE_EXTENSIONS tree hnd
          (extPhase false DOC_EXTENSIONS "docs" (fun _ => docsInfo) tree
      (extPhase false CONFIG_EXTENSIONS "config" configInfo tree
      (extPhase false CODE_EXTENSIONS "code" (codeInfo P) tree emptyScan))) p).2 c hc
        rw [hf] at h
        simpa using h
      have hB5 : alGet (getBucket (extPhase true DATA_EXTENSIONS "data" (fun _ => dataInfo) tree
      (extPhase false STYLE_EXTENSIONS "styles" (fun _ => stylesInfo) tree
      (extPhase false DOC_EXTENSIONS "docs" (fun _ => docsInfo) tree
      (extPhase false CONFIG_EXTENSIONS "config" configInfo tree
      (extPhase false CODE_EXTENSIONS "code" (codeInfo P) tree emptyScan))))) c) p =
          (if (matchesAny DATA_EXTENSIONS e.path && !isSkipped e.path &&
              !(alGet (extPhase false STYLE_EXTENSIONS "styles" (fun _ => stylesInfo) tree
      (extPhase false DOC_EXTENSIONS "docs" (fun _ => docsInfo) tree
      (extPhase false CONFIG_EXTENSIONS "config" configInfo tree
      (extPhase false CODE_EXTENSIONS "code" (codeInfo P) tree emptyScan)))).files p).isSome) && ("data" == c)
           then some dataInfo else alGet (getBucket (extPhase false STYLE_EXTENSIONS "styles" (fun _ => stylesInfo) tree
      (extPhase false DOC_EXTENSIONS "docs" (fun _ => docsInfo) tree
      (extPhase false CONFIG_EXTENSIONS "config" configInfo tree
      (extPhase false CODE_EXTENSIONS "code" (codeInfo P) tree emptyScan)))) c) p) := by
        have h := (extPhase_closed true "data" (fun _ => dataInfo) DATA_EXTENSIONS tree hnd
          (extPhase false STYLE_EXTENSIONS "styles" (fun _ => stylesInfo) tree
      (extPhase false DOC_EXTENSIONS "docs" (fun _ => docsInfo) tree
      (extPhase false CONFIG_EXTENSIONS "config" configInfo tree
      (extPhase false CODE_EXTENSIONS "code" (codeInfo P) tree emptyScan)))) p).2 c hc
        rw [hf] at h
        simpa using h
      have hB6 : alGet (getBucket (treeFold (fun e v => e.isFile && !isSkipped e.path && !v.isSome) "other" otherInfo tree
      (extPhase true DATA_EXTENSIONS "data" (fun _ => dataInfo) tree
      (extPhase false STYLE_EXTENSIONS "styles" (fun _ => stylesInfo) tree
      (extPhase false DOC_EXTENSIONS "docs" (fun _ => docsInfo) tree
      (extPhase false CONFIG_EXTENSIONS "config" configInfo tree
      (extPhase false CODE_EXTENSIONS "code" (codeInfo P) tree emptyScan)))))) c) p =
          (if (e.isFile && !isSkipped e.path && !(alGet (extPhase true DATA_EXTENSIONS "data" (fun _ => dataInfo) tree
      (extPhase false STYLE_EXTENSIONS "styles" (fun _ => stylesInfo) tree
      (extPhase false DOC_EXTENSIONS "docs" (fun _ => docsInfo) tree
      (extPhase false CONFIG_EXTENSIONS "config" configInfo tree
      (extPhase false CODE_EXTENSIONS "code" (codeInfo P) tree emptyScan))))).files p).isSome) &&
              ("other" == c)
           then some (otherInfo e) else alGet (getBucket (extPhase true DATA_EXTENSIONS "data" (fun _ => dataInfo) tree
      (extPhase false STYLE_EXTENSIONS "styles" (fun _ => stylesInfo) tree
      (extPhase false DOC_EXTENSIONS "docs" (fun _ => docsInfo) tree
      (extPhase false CONFIG_EXTENSIONS "config" configInfo tree
      (extPhase false CODE_EXTENSIONS "code" (codeInfo P) tree emptyScan))))) c) p) := by
        have h := (treeFold_closed (fun e v => e.isFile && !isSkipped e.path && !v.isSome)
          "other" otherInfo tree hnd (extPhase true DATA_EXTENSIONS "data" (fun _ => dataInfo) tree
      (extPhase false STYLE_EXTENSIONS "styles" (fun _ => stylesInfo) tree
      (extPhase false DOC_EXTENSIONS "docs" (fun _ => docsInfo) tree
      (extPhase false CONFIG_EXTENSIONS "config" configInfo tree
      (extPhase false CODE_EXTENSIONS "code" (codeInfo P) tree emptyScan))))) p).2 c hc
        rw [hf] at h
        exact h
      rw [hB6, hB5, hB4, hB3, hB2, hB1]
    constructor
    · show alGet (scanFiles P true tree).files p = fileInfoFor P e
      rw [hscan]
      cases hsk : isSkipped e.path with
      | true =>
        have v1 : alGet (extPhase false CODE_EXTENSIONS "code" (codeInfo P) tree emptyScan).files p = none := by
          rw [hA1]; simp [hsk]
        have v2 : alGet (extPhase false CONFIG_EXTENSIONS "config" configInfo tree
      (extPhase false CODE_EXTENSIONS "code" (codeInfo P) tree emptyScan)).files p = none := by
          rw [hA2, v1]; simp [hsk]
        have v3 : alGet (extPhase false DOC_EXTENSIONS "docs" (fun _ => docsInfo) tree
      (extPhase false CONFIG_EXTENSIONS "config" configInfo tree
      (extPhase false CODE_EXTENSIONS "code" (codeInfo P) tree emptyScan))).files p = none := by
          rw [hA3, v2]; simp [hsk]
        have v4 : alGet (extPhase false STYLE_EXTENSIONS "styles" (fun _ => stylesInfo) tree
      (extPhase false DOC_EXTENSIONS "docs" (fun _ => docsInfo) tree
      (extPhase false CONFIG_EXTENSIONS "config" configInfo tree
      (extPhase false CODE_EXTENSIONS "code" (codeInfo P) tree emptyScan)))).files p = none := by
          rw [hA4, v3]; simp [hsk]
        have v5 : alGet (extPhase true DATA_EXTENSIONS "data" (fun _ => dataInfo) tree
      (extPhase false STYLE_EXTENSIONS "styles" (fun _ => stylesInfo) tree
      (extPhase false DOC_EXTENSIONS "docs" (fun _ => docsInfo) tree
      (extPhase false CONFIG_EXTENSIONS "config" configInfo tree
      (extPhase false CODE_EXTENSIONS "code" (codeInfo P) tree emptyScan))))).files p = none := by
          rw [hA5, v4]; simp [hsk]
        have v6 : alGet (treeFold (fun e v => e.isFile && !isSkipped e.path && !v.isSome) "other" otherInfo tree
      (extPhase true DATA_EXTENSIONS "data" (fun _ => dataInfo) tree
      (extPhase false STYLE_EXTENSIONS "styles" (fun _ => stylesInfo) tree
      (extPhase false DOC_EXTENSIONS "docs" (fun _ => docsInfo) tree
      (extPhase false CONFIG_EXTENSIONS "config" configInfo tree
      (extPhase false CODE_EXTENSIONS "code" (codeInfo P) tree emptyScan)))))).files p = none := by
          rw [hA6, v5]; simp [hsk]
        rw [v6]; simp [fileInfoFor, hsk]
      | false =>
        cases hm1 : matchesAny CODE_EXTENSIONS e.path with
        | true =>
          have hx2 := matchesAny_false_of CODE_EXTENSIONS CONFIG_EXTENSIONS (by decide) e.path hm1
          have hx3 := matchesAny_false_of CODE_EXTENSIONS DOC_EXTENSIONS (by decide) e.path hm1
          have hx4 := matchesAny_false_of CODE_EXTENSIONS STYLE_EXTENSIONS (by decide) e.path hm1
          have hx5 := matchesAny_false_of CODE_EXTENSIONS DATA_EXTENSIONS (by decide) e.path hm1
          have v1 : alGet (extPhase false CODE_EXTENSIONS "code" (codeInfo P) tree emptyScan).files p = (some (codeInfo P e)) := by
            rw [hA1]; simp [hm1, hsk]
          have v2 : alGet (extPhase false CONFIG_EXTENSIONS "config" configInfo tree
      (extPhase false CODE_EXTENSIONS "code" (codeInfo P) tree emptyScan)).files p = (some (codeInfo P e)) := by
            rw [hA2, v1]; simp [hx2]
          have v3 : alGet (extPhase false DOC_EXTENSIONS "docs" (fun _ => docsInfo) tree
      (extPhase false CONFIG_EXTENSIONS "config" configInfo tree
      (extPhase false CODE_EXTENSIONS "code" (codeInfo P) tree emptyScan))).files p = (some (codeInfo P e)) := by
            rw [hA3, v2]; simp [hx3]
          have v4 : alGet (extPhase false STYLE_EXTENSIONS "styles" (fun _ => stylesInfo) tree
      (extPhase false DOC_EXTENSIONS "docs" (fun _ => docsInfo) tree
      (extPhase false CONFIG_EXTENSIONS "config" configInfo tree
      (extPhase false CODE_EXTENSIONS "code" (codeInfo P) tree emptyScan)))).files p = (some (codeInfo P e)) := by
            rw [hA4, v3]; simp [hx4]
          have v5 : alGet (extPhase true DATA_EXTENSIONS "data" (fun _ => dataInfo) tree
      (extPhase false STYLE_EXTENSIONS "styles" (fun _ => stylesInfo) tree
      (extPhase false DOC_EXTENSIONS "docs" (fun _ => docsInfo) tree
      (extPhase false CONFIG_EXTENSIONS "config" configInfo tree
      (extPhase false CODE_EXTENSIONS "code" (codeInfo P) tree emptyScan))))).files p = (some (codeInfo P e)) := by
            rw [hA5, v4]; simp [hx5]
          have v6 : alGet (treeFold (fun e v => e.isFile && !isSkipped e.path && !v.isSome) "other" otherInfo tree
      (extPhase true DATA_EXTENSIONS "data" (fun _ => dataInfo) tree
      (extPhase false STYLE_EXTENSIONS "styles" (fun _ => stylesInfo) tree
      (extPhase false DOC_EXTENSIONS "docs" (fun _ => docsInfo) tree
      (extPhase false CONFIG_EXTENSIONS "config" configInfo tree
      (extPhase false CODE_EXTENSIONS "code" (codeInfo P) tree emptyScan)))))).files p = (some (codeInfo P e)) := by
            rw [hA6, v5]; simp
          rw [v6]; simp [fileInfoFor, hsk, hm1, hx2, hx3, hx4, hx5]
        | false =>
          cases hm2 : matchesAny CONFIG_EXTENSIONS e.path with
          | true =>
            have hx3 := matchesAny_false_of CONFIG_EXTENSIONS DOC_EXTENSIONS (by decide) e.path hm2
            have hx4 := matchesAny_false_of CONFIG_EXTENSIONS STYLE_EXTENSIONS (by decide) e.path hm2
            have hx5 := matchesAny_false_of CONFIG_EXTENSIONS DATA_EXTENSIONS (by decide) e.path hm2
            have v1 : alGet (extPhase false CODE_EXTENSIONS "code" (codeInfo P) tree emptyScan).files p = none := by
              rw [hA1]; simp [hm1]
            have v2 : alGet (extPhase false CONFIG_EXTENSIONS "config" configInfo tree
      (extPhase false CODE_EXTENSIONS "code" (codeInfo P) tree emptyScan)).files p = (some (configInfo e)) := by
              rw [hA2, v1]; simp [hm2, hsk]
            have v3 : alGet (extPhase false DOC_EXTENSIONS "docs" (fun _ => docsInfo) tree
      (extPhase false CONFIG_EXTENSIONS "config" configInfo tree
      (extPhase false CODE_EXTENSIONS "code" (codeInfo P) tree emptyScan))).files p = (some (configInfo e)) := by
              rw [hA3, v2]; simp [hx3]
            have v4 : alGet (extPhase false STYLE_EXTENSIONS "styles" (fun _ => stylesInfo) tree
      (extPhase false DOC_EXTENSIONS "docs" (fun _ => docsInfo) tree
      (extPhase false CONFIG_EXTENSIONS "config" configInfo tree
      (extPhase false CODE_EXTENSIONS "code" (codeInfo P) tree emptyScan)))).files p = (some (configInfo e)) := by
              rw [hA4, v3]; simp [hx4]
            have v5 : alGet (extPhase true DATA_EXTENSIONS "data" (fun _ => dataInfo) tree
      (extPhase false STYLE_EXTENSIONS "styles" (fun _ => stylesInfo) tree
      (extPhase false DOC_EXTENSIONS "docs" (fun _ => docsInfo) tree
      (extPhase false CONFIG_EXTENSIONS "config" configInfo tree
      (extPhase false CODE_EXTENSIONS "code" (codeInfo P) tree emptyScan))))).files p = (some (configInfo e)) := by
              rw [hA5, v4]; simp [hx5]
            have v6 : alGet (treeFold (fun e v => e.isFile && !isSkipped e.path && !v.isSome) "other" otherInfo tree
      (extPhase true DATA_EXTENSIONS "data" (fun _ => dataInfo) tree
      (extPhase false STYLE_EXTENSIONS "styles" (fun _ => stylesInfo) tree
      (extPhase false DOC_EXTENSIONS "docs" (fun _ => docsInfo) tree
      (extPhase false CONFIG_EXTENSIONS "config" configInfo tree
      (extPhase false CODE_EXTENSIONS "code" (codeInfo P) tree emptyScan)))))).files p = (some (configInfo e)) := by
              rw [hA6, v5]; simp
            rw [v6]; simp [fileInfoFor, hsk, hm1, hm2, hx3, hx4, hx5]
          | false =>
            cases hm3 : matchesAny DOC_EXTENSIONS e.path with
            | true =>
              have hx4 := matchesAny_false_of DOC_EXTENSIONS STYLE_EXTENSIONS (by decide) e.path hm3
              have hx5 := matchesAny_false_of DOC_EXTENSIONS DATA_EXTENSIONS (by decide) e.path hm3
              have v1 : alGet (extPhase false CODE_EXTENSIONS "code" (codeInfo P) tree emptyScan).files p = none := by
                rw [hA1]; simp [hm1]
              have v2 : alGet (extPhase false CONFIG_EXTENSIONS "config" configInfo tree
      (extPhase false CODE_EXTENSIONS "code" (codeInfo P) tree emptyScan)).files p = none := by
                rw [hA2, v1]; simp [hm2]
              have v3 : alGet (extPhase false DOC_EXTENSIONS "docs" (fun _ => docsInfo) tree
      (extPhase false CONFIG_EXTENSIONS "config" configInfo tree
      (extPhase false CODE_EXTENSIONS "code" (codeInfo P) tree emptyScan))).files p = (some docsInfo) := by
                rw [hA3, v2]; simp [hm3, hsk]
              have v4 : alGet (extPhase false STYLE_EXTENSIONS "styles" (fun _ => stylesInfo) tree
      (extPhase false DOC_EXTENSIONS "docs" (fun _ => docsInfo) tree
      (extPhase false CONFIG_EXTENSIONS "config" configInfo tree
      (extPhase false CODE_EXTENSIONS "code" (codeInfo P) tree emptyScan)))).files p = (some docsInfo) := by
                rw [hA4, v3]; simp [hx4]
              have v5 : alGet (extPhase true DATA_EXTENSIONS "data" (fun _ => dataInfo) tree
      (extPhase false STYLE_EXTENSIONS "styles" (fun _ => stylesInfo) tree
      (extPhase false DOC_EXTENSIONS "docs" (fun _ => docsInfo) tree
      (extPhase false CONFIG_EXTENSIONS "config" configInfo tree
      (extPhase false CODE_EXTENSIONS "code" (codeInfo P) tree emptyScan))))).files p = (some docsInfo) := by
                rw [hA5, v4]; simp [hx5]
              have v6 : alGet (treeFold (fun e v => e.isFile && !isSkipped e.path && !v.isSome) "other" otherInfo tree
      (extPhase true DATA_EXTENSIONS "data" (fun _ => dataInfo) tree
      (extPhase false STYLE_EXTENSIONS "styles" (fun _ => stylesInfo) tree
      (extPhase false DOC_EXTENSIONS "docs" (fun _ => docsInfo) tree
      (extPhase false CONFIG_EXTENSIONS "config" configInfo tree
      (extPhase false CODE_EXTENSIONS "code" (codeInfo P) tree emptyScan)))))).files p = (some docsInfo) := by
                rw [hA6, v5]; simp
              rw [v6]; simp [fileInfoFor, hsk, hm1, hm2, hm3, hx4, hx5]
            | false =>
              cases hm4 : matchesAny STYLE_EXTENSIONS e.path with
              | true =>
                have hx5 := matchesAny_false_of STYLE_EXTENSIONS DATA_EXTENSIONS (by decide) e.path hm4
                have v1 : alGet (extPhase false CODE_EXTENSIONS "code" (codeInfo P) tree emptyScan).files p = none := by
                  rw [hA1]; simp [hm1]
                have v2 : alGet (extPhase false CONFIG_EXTENSIONS "config" configInfo tree
      (extPhase false CODE_EXTENSIONS "code" (codeInfo P) tree emptyScan)).files p = none := by
                  rw [hA2, v1]; simp [hm2]
                have v3 : alGet (extPhase false DOC_EXTENSIONS "docs" (fun _ => docsInfo) tree
      (extPhase false CONFIG_EXTENSIONS "config" configInfo tree
      (extPhase false CODE_EXTENSIONS "code" (codeInfo P) tree emptyScan))).files p = none := by
                  rw [hA3, v2]; simp [hm3]
                have v4 : alGet (extPhase false STYLE_EXTENSIONS "styles" (fun _ => stylesInfo) tree
      (extPhase false DOC_EXTENSIONS "docs" (fun _ => docsInfo) tree
      (extPhase false CONFIG_EXTENSIONS "config" configInfo tree
      (extPhase false CODE_EXTENSIONS "code" (codeInfo P) tree emptyScan)))).files p = (some stylesInfo) := by
                  rw [hA4, v3]; simp [hm4, hsk]
                have v5 : alGet (extPhase true DATA_EXTENSIONS "data" (fun _ => dataInfo) tree
      (extPhase false STYLE_EXTENSIONS "styles" (fun _ => stylesInfo) tree
      (extPhase false DOC_EXTENSIONS "docs" (fun _ => docsInfo) tree
      (extPhase false CONFIG_EXTENSIONS "config" configInfo tree
      (extPhase false CODE_EXTENSIONS "code" (codeInfo P) tree emptyScan))))).files p = (some stylesInfo) := by
                  rw [hA5, v4]; simp [hx5]
                have v6 : alGet (treeFold (fun e v => e.isFile && !isSkipped e.path && !v.isSome) "other" otherInfo tree
      (extPhase true DATA_EXTENSIONS "data" (fun _ => dataInfo) tree
      (extPhase false STYLE_EXTENSIONS "styles" (fun _ => stylesInfo) tree
      (extPhase false DOC_EXTENSIONS "docs" (fun _ => docsInfo) tree
      (extPhase false CONFIG_EXTENSIONS "config" configInfo tree
      (extPhase false CODE_EXTENSIONS "code" (codeInfo P) tree emptyScan)))))).files p = (some stylesInfo) := by
                  rw [hA6, v5]; simp
                rw [v6]; simp [fileInfoFor, hsk, hm1, hm2, hm3, hm4, hx5]
              | false =>
                cases hm5 : matchesAny DATA_EXTENSIONS e.path with
                | true =>
                  have v1 : alGet (extPhase false CODE_EXTENSIONS "code" (codeInfo P) tree emptyScan).files p = none := by
                    rw [hA1]; simp [hm1]
                  have v2 : alGet (extPhase false CONFIG_EXTENSIONS "config" configInfo tree
      (extPhase false CODE_EXTENSIONS "code" (codeInfo P) tree emptyScan)).files p = none := by
                    rw [hA2, v1]; simp [hm2]
                  have v3 : alGet (extPhase false DOC_EXTENSIONS "docs" (fun _ => docsInfo) tree
      (extPhase false CONFIG_EXTENSIONS "config" configInfo tree
      (extPhase false CODE_EXTENSIONS "code" (codeInfo P) tree emptyScan))).files p = none := by
                    rw [hA3, v2]; simp [hm3]
                  have v4 : alGet (extPhase false STYLE_EXTENSIONS "styles" (fun _ => stylesInfo) tree
      (extPhase false DOC_EXTENSIONS "docs" (fun _ => docsInfo) tree
      (extPhase false CONFIG_EXTENSIONS "config" configInfo tree
      (extPhase false CODE_EXTENSIONS "code" (codeInfo P) tree emptyScan)))).files p = none := by
                    rw [hA4, v3]; simp [hm4]
                  have v5 : alGet (extPhase true DATA_EXTENSIONS "data" (fun _ => dataInfo) tree
      (extPhase false STYLE_EXTENSIONS "styles" (fun _ => stylesInfo) tree
      (extPhase false DOC_EXTENSIONS "docs" (fun _ => docsInfo) tree
      (extPhase false CONFIG_EXTENSIONS "config" configInfo tree
      (extPhase false CODE_EXTENSIONS "code" (codeInfo P) tree emptyScan))))).files p = (some dataInfo) := by
                    rw [hA5, v4]; simp [hm5, hsk]
                  have v6 : alGet (treeFold (fun e v => e.isFile && !isSkipped e.path && !v.isSome) "other" otherInfo tree
      (extPhase true DATA_EXTENSIONS "data" (fun _ => dataInfo) tree
      (extPhase false STYLE_EXTENSIONS "styles" (fun _ => stylesInfo) tree
      (extPhase false DOC_EXTENSIONS "docs" (fun _ => docsInfo) tree
      (extPhase false CONFIG_EXTENSIONS "config" configInfo tree
      (extPhase false CODE_EXTENSIONS "code" (codeInfo P) tree emptyScan)))))).files p = (some dataInfo) := by
                    rw [hA6, v5]; simp
                  rw [v6]; simp [fileInfoFor, hsk, hm1, hm2, hm3, hm4, hm5]
                | false =>
                  have v1 : alGet (extPhase false CODE_EXTENSIONS "code" (codeInfo P) tree emptyScan).files p = none := by
                    rw [hA1]; simp [hm1]
                  have v2 : alGet (extPhase false CONFIG_EXTENSIONS "config" configInfo tree
      (extPhase false CODE_EXTENSIONS "code" (codeInfo P) tree emptyScan)).files p = none := by
                    rw [hA2, v1]; simp [hm2]
                  have v3 : alGet (extPhase false DOC_EXTENSIONS "docs" (fun _ => docsInfo) tree
      (extPhase false CONFIG_EXTENSIONS "config" configInfo tree
      (extPhase false CODE_EXTENSIONS "code" (codeInfo P) tree emptyScan))).files p = none := by
                    rw [hA3, v2]; simp [hm3]
                  have v4 : alGet (extPhase false STYLE_EXTENSIONS "styles" (fun _ => stylesInfo) tree
      (extPhase false DOC_EXTENSIONS "docs" (fun _ => docsInfo) tree
      (extPhase false CONFIG_EXTENSIONS "config" configInfo tree
      (extPhase false CODE_EXTENSIONS "code" (codeInfo P) tree emptyScan)))).files p = none := by
                    rw [hA4, v3]; simp [hm4]
                  have v5 : alGet (extPhase true DATA_EXTENSIONS "data" (fun _ => dataInfo) tree
      (extPhase false STYLE_EXTENSIONS "styles" (fun _ => stylesInfo) tree
      (extPhase false DOC_EXTENSIONS "docs" (fun _ => docsInfo) tree
      (extPhase false CONFIG_EXTENSIONS "config" configInfo tree
      (extPhase false CODE_EXTENSIONS "code" (codeInfo P) tree emptyScan))))).files p = none := by
                    rw [hA5, v4]; simp [hm5]
                  cases hif : e.isFile with
                  | true =>
                    have v6 : alGet (treeFold (fun e v => e.isFile && !isSkipped e.path && !v.isSome) "other" otherInfo tree
      (extPhase true DATA_EXTENSIONS "data" (fun _ => dataInfo) tree
      (extPhase false STYLE_EXTENSIONS "styles" (fun _ => stylesInfo) tree
      (extPhase false DOC_EXTENSIONS "docs" (fun _ => docsInfo) tree
      (extPhase false CONFIG_EXTENSIONS "config" configInfo tree
      (extPhase false CODE_EXTENSIONS "code" (codeInfo P) tree emptyScan)))))).files p = some (otherInfo e) := by
                      rw [hA6, v5]; simp [hif, hsk]
                    rw [v6]; simp [fileInfoFor, hsk, hm1, hm2, hm3, hm4, hm5, hif]
                  | false =>
                    have v6 : alGet (treeFold (fun e v => e.isFile && !isSkipped e.path && !v.isSome) "other" otherInfo tree
      (extPhase true DATA_EXTENSIONS "data" (fun _ => dataInfo) tree
      (extPhase false STYLE_EXTENSIONS "styles" (fun _ => stylesInfo) tree
      (extPhase false DOC_EXTENSIONS "docs" (fun _ => docsInfo) tree
      (extPhase false CONFIG_EXTENSIONS "config" configInfo tree
      (extPhase false CODE_EXTENSIONS "code" (codeInfo P) tree emptyScan)))))).files p = none := by
                      rw [hA6, v5]; simp [hif]
                    rw [v6]; simp [fileInfoFor, hsk, hm1, hm2, hm3, hm4, hm5, hif]
    · intro c hc
      show alGet (getBucket (scanFiles P true tree) c) p =
        (match fileInfoFor P e with
         | some info => if info.category = c then some info else none
         | none => none)
      rw [hscan]
      cases hsk : isSkipped e.path with
      | true =>
        rw [hBs c hc]; simp [fileInfoFor, hsk]
      | false =>
        cases hm1 : matchesAny CODE_EXTENSIONS e.path with
        | true =>
          have hx2 := matchesAny_false_of CODE_EXTENSIONS CONFIG_EXTENSIONS (by decide) e.path hm1
          have hx3 := matchesAny_false_of CODE_EXTENSIONS DOC_EXTENSIONS (by decide) e.path hm1
          have hx4 := matchesAny_false_of CODE_EXTENSIONS STYLE_EXTENSIONS (by decide) e.path hm1
          have hx5 := matchesAny_false_of CODE_EXTENSIONS DATA_EXTENSIONS (by decide) e.path hm1
          have v1 : alGet (extPhase false CODE_EXTENSIONS "code" (codeInfo P) tree emptyScan).files p = (some (codeInfo P e)) := by
            rw [hA1]; simp [hm1, hsk]
          have v2 : alGet (extPhase false CONFIG_EXTENSIONS "config" configInfo tree
      (extPhase false CODE_EXTENSIONS "code" (codeInfo P) tree emptyScan)).files p = (some (codeInfo P e)) := by
            rw [hA2, v1]; simp [hx2]
          have v3 : alGet (extPhase false DOC_EXTENSIONS "docs" (fun _ => docsInfo) tree
      (extPhase false CONFIG_EXTENSIONS "config" configInfo tree
      (extPhase false CODE_EXTENSIONS "code" (codeInfo P) tree emptyScan))).files p = (some (codeInfo P e)) := by
            rw [hA3, v2]; simp [hx3]
          have v4 : alGet (extPhase false STYLE_EXTENSIONS "styles" (fun _ => stylesInfo) tree
      (extPhase false DOC_EXTENSIONS "docs" (fun _ => docsInfo) tree
      (extPhase false CONFIG_EXTENSIONS "config" configInfo tree
      (extPhase false CODE_EXTENSIONS "code" (codeInfo P) tree emptyScan)))).files p = (some (codeInfo P e)) := by
            rw [hA4, v3]; simp [hx4]
          have v5 : alGet (extPhase true DATA_EXTENSIONS "data" (fun _ => dataInfo) tree
      (extPhase false STYLE_EXTENSIONS "styles" (fun _ => stylesInfo) tree
      (extPhase false DOC_EXTENSIONS "docs" (fun _ => docsInfo) tree
      (extPhase false CONFIG_EXTENSIONS "config" configInfo tree
      (extPhase false CODE_EXTENSIONS "code" (codeInfo P) tree emptyScan))))).files p = (some (codeInfo P e)) := by
            rw [hA5, v4]; simp [hx5]
          have hfi : fileInfoFor P e = (some (codeInfo P e)) := by
            simp [fileInfoFor, hsk, hm1]
          rw [hBs c hc, v5, v4, hfi]
          simp [hsk, hm1, hx2, hx3, hx4, hx5, codeInfo]
        | false =>
          cases hm2 : matchesAny CONFIG_EXTENSIONS e.path with
          | true =>
            have hx3 := matchesAny_false_of CONFIG_EXTENSIONS DOC_EXTENSIONS (by decide) e.path hm2
            have hx4 := matchesAny_false_of CONFIG_EXTENSIONS STYLE_EXTENSIONS (by decide) e.path hm2
            have hx5 := matchesAny_false_of CONFIG_EXTENSIONS DATA_EXTENSIONS (by decide) e.path hm2
            have v1 : alGet (extPhase false CODE_EXTENSIONS "code" (codeInfo P) tree emptyScan).files p = none := by
              rw [hA1]; simp [hm1]
            have v2 : alGet (extPhase false CONFIG_EXTENSIONS "config" configInfo tree
      (extPhase false CODE_EXTENSIONS "code" (codeInfo P) tree emptyScan)).files p = (some (configInfo e)) := by
              rw [hA2, v1]; simp [hm2, hsk]
            have v3 : alGet (extPhase false DOC_EXTENSIONS "docs" (fun _ => docsInfo) tree
      (extPhase false CONFIG_EXTENSIONS "config" configInfo tree
      (extPhase false CODE_EXTENSIONS "code" (codeInfo P) tree emptyScan))).files p = (some (configInfo e)) := by
              rw [hA3, v2]; simp [hx3]
            have v4 : alGet (extPhase false STYLE_EXTENSIONS "styles" (fun _ => stylesInfo) tree
      (extPhase false DOC_EXTENSIONS "docs" (fun _ => docsInfo) tree
      (extPhase false CONFIG_EXTENSIONS "config" configInfo tree
      (extPhase false CODE_EXTENSIONS "code" (codeInfo P) tree emptyScan)))).files p = (some (configInfo e)) := by
              rw [hA4, v3]; simp [hx4]
            have v5 : alGet (extPhase true DATA_EXTENSIONS "data" (fun _ => dataInfo) tree
      (extPhase false STYLE_EXTENSIONS "styles" (fun _ => stylesInfo) tree
      (extPhase false DOC_EXTENSIONS "docs" (fun _ => docsInfo) tree
      (extPhase false CONFIG_EXTENSIONS "config" configInfo tree
      (extPhase false CODE_EXTENSIONS "code" (codeInfo P) tree emptyScan))))).files p = (some (configInfo e)) := by
              rw [hA5, v4]; simp [hx5]
            have hfi : fileInfoFor P e = (some (configInfo e)) := by
              simp [fileInfoFor, hsk, hm1, hm2]
            rw [hBs c hc, v5, v4, hfi]
            simp [hsk, hm1, hm2, hx3, hx4, hx5, configInfo]
          | false =>
            cases hm3 : matchesAny DOC_EXTENSIONS e.path with
            | true =>
              have hx4 := matchesAny_false_of DOC_EXTENSIONS STYLE_EXTENSIONS (by decide) e.path hm3
              have hx5 := matchesAny_false_of DOC_EXTENSIONS DATA_EXTENSIONS (by decide) e.path hm3
              have v1 : alGet (extPhase false CODE_EXTENSIONS "code" (codeInfo P) tree emptyScan).files p = none := by
                rw [hA1]; simp [hm1]
              have v2 : alGet (extPhase false CONFIG_EXTENSIONS "config" configInfo tree
      (extPhase false CODE_EXTENSIONS "code" (codeInfo P) tree emptyScan)).files p = none := by
                rw [hA2, v1]; simp [hm2]
              have v3 : alGet (extPhase false DOC_EXTENSIONS "docs" (fun _ => docsInfo) tree
      (extPhase false CONFIG_EXTENSIONS "config" configInfo tree
      (extPhase false CODE_EXTENSIONS "code" (codeInfo P) tree emptyScan))).files p = (some docsInfo) := by
                rw [hA3, v2]; simp [hm3, hsk]
              have v4 : alGet (extPhase false STYLE_EXTENSIONS "styles" (fun _ => stylesInfo) tree
      (extPhase false DOC_EXTENSIONS "docs" (fun _ => docsInfo) tree
      (extPhase false CONFIG_EXTENSIONS "config" configInfo tree
      (extPhase false CODE_EXTENSIONS "code" (codeInfo P) tree emptyScan)))).files p = (some docsInfo) := by
                rw [hA4, v3]; simp [hx4]
              have v5 : alGet (extPhase true DATA_EXTENSIONS "data" (fun _ => dataInfo) tree
      (extPhase false STYLE_EXTENSIONS "styles" (fun _ => stylesInfo) tree
      (extPhase false DOC_EXTENSIONS "docs" (fun _ => docsInfo) tree
      (extPhase false CONFIG_EXTENSIONS "config" configInfo tree
      (extPhase false CODE_EXTENSIONS "code" (codeInfo P) tree emptyScan))))).files p = (some docsInfo) := by
                rw [hA5, v4]; simp [hx5]
              have hfi : fileInfoFor P e = (some docsInfo) := by
                simp [fileInfoFor, hsk, hm1, hm2, hm3]
              rw [hBs c hc, v5, v4, hfi]
              simp [hsk, hm1, hm2, hm3, hx4, hx5, docsInfo]
            | false =>
              cases hm4 : matchesAny STYLE_EXTENSIONS e.path with
              | true =>
                have hx5 := matchesAny_false_of STYLE_EXTENSIONS DATA_EXTENSIONS (by decide) e.path hm4
                have v1 : alGet (extPhase false CODE_EXTENSIONS "code" (codeInfo P) tree emptyScan).files p = none := by
                  rw [hA1]; simp [hm1]
                have v2 : alGet (extPhase false CONFIG_EXTENSIONS "config" configInfo tree
      (extPhase false CODE_EXTENSIONS "code" (codeInfo P) tree emptyScan)).files p = none := by
                  rw [hA2, v1]; simp [hm2]
                have v3 : alGet (extPhase false DOC_EXTENSIONS "docs" (fun _ => docsInfo) tree
      (extPhase false CONFIG_EXTENSIONS "config" configInfo tree
      (extPhase false CODE_EXTENSIONS "code" (codeInfo P) tree emptyScan))).files p = none := by
                  rw [hA3, v2]; simp [hm3]
                have v4 : alGet (extPhase false STYLE_EXTENSIONS "styles" (fun _ => stylesInfo) tree
      (extPhase false DOC_EXTENSIONS "docs" (fun _ => docsInfo) tree
      (extPhase false CONFIG_EXTENSIONS "config" configInfo tree
      (extPhase false CODE_EXTENSIONS "code" (codeInfo P) tree emptyScan)))).files p = (some stylesInfo) := by
                  rw [hA4, v3]; simp [hm4, hsk]
                have v5 : alGet (extPhase true DATA_EXTENSIONS "data" (fun _ => dataInfo) tree
      (extPhase false STYLE_EXTENSIONS "styles" (fun _ => stylesInfo) tree
      (extPhase false DOC_EXTENSIONS "docs" (fun _ => docsInfo) tree
      (extPhase false CONFIG_EXTENSIONS "config" configInfo tree
      (extPhase false CODE_EXTENSIONS "code" (codeInfo P) tree emptyScan))))).files p = (some stylesInfo) := by
                  rw [hA5, v4]; simp [hx5]
                have hfi : fileInfoFor P e = (some stylesInfo) := by
                  simp [fileInfoFor, hsk, hm1, hm2, hm3, hm4]
                rw [hBs c hc, v5, v4, hfi]
                simp [hsk, hm1, hm2, hm3, hm4, hx5, stylesInfo]
              | false =>
                cases hm5 : matchesAny DATA_EXTENSIONS e.path with
                | true =>
                  have v1 : alGet (extPhase false CODE_EXTENSIONS "code" (codeInfo P) tree emptyScan).files p = none := by
                    rw [hA1]; simp [hm1]
                  have v2 : alGet (extPhase false CONFIG_EXTENSIONS "config" configInfo tree
      (extPhase false CODE_EXTENSIONS "code" (codeInfo P) tree emptyScan)).files p = none := by
                    rw [hA2, v1]; simp [hm2]
                  have v3 : alGet (extPhase false DOC_EXTENSIONS "docs" (fun _ => docsInfo) tree
      (extPhase false CONFIG_EXTENSIONS "config" configInfo tree
      (extPhase false CODE_EXTENSIONS "code" (codeInfo P) tree emptyScan))).files p = none := by
                    rw [hA3, v2]; simp [hm3]
                  have v4 : alGet (extPhase false STYLE_EXTENSIONS "styles" (fun _ => stylesInfo) tree
      (extPhase false DOC_EXTENSIONS "docs" (fun _ => docsInfo) tree
      (extPhase false CONFIG_EXTENSIONS "config" configInfo tree
      (extPhase false CODE_EXTENSIONS "code" (codeInfo P) tree emptyScan)))).files p = none := by
                    rw [hA4, v3]; simp [hm4]
                  have v5 : alGet (extPhase true DATA_EXTENSIONS "data" (fun _ => dataInfo) tree
      (extPhase false STYLE_EXTENSIONS "styles" (fun _ => stylesInfo) tree
      (extPhase false DOC_EXTENSIONS "docs" (fun _ => docsInfo) tree
      (extPhase false CONFIG_EXTENSIONS "config" configInfo tree
      (extPhase false CODE_EXTENSIONS "code" (codeInfo P) tree emptyScan))))).files p = (some dataInfo) := by
                    rw [hA5, v4]; simp [hm5, hsk]
                  have hfi : fileInfoFor P e = (some dataInfo) := by
                    simp [fileInfoFor, hsk, hm1, hm2, hm3, hm4, hm5]
                  rw [hBs c hc, v5, v4, hfi]
                  simp [hsk, hm1, hm2, hm3, hm4, hm5, dataInfo]
                | false =>
                  have v1 : alGet (extPhase false CODE_EXTENSIONS "code" (codeInfo P) tree emptyScan).files p = none := by
                    rw [hA1]; simp [hm1]
                  have v2 : alGet (extPhase false CONFIG_EXTENSIONS "config" configInfo tree
      (extPhase false CODE_EXTENSIONS "code" (codeInfo P) tree emptyScan)).files p = none := by
                    rw [hA2, v1]; simp [hm2]
                  have v3 : alGet (extPhase false DOC_EXTENSIONS "docs" (fun _ => docsInfo) tree
      (extPhase false CONFIG_EXTENSIONS "config" configInfo tree
      (extPhase false CODE_EXTENSIONS "code" (codeInfo P) tree emptyScan))).files p = none := by
                    rw [hA3, v2]; simp [hm3]
                  have v4 : alGet (extPhase false STYLE_EXTENSIONS "styles" (fun _ => stylesInfo) tree
      (extPhase false DOC_EXTENSIONS "docs" (fun _ => docsInfo) tree
      (extPhase false CONFIG_EXTENSIONS "config" configInfo tree
      (extPhase false CODE_EXTENSIONS "code" (codeInfo P) tree emptyScan)))).files p = none := by
                    rw [hA4, v3]; simp [hm4]
                  have v5 : alGet (extPhase true DATA_EXTENSIONS "data" (fun _ => dataInfo) tree
      (extPhase false STYLE_EXTENSIONS "styles" (fun _ => stylesInfo) tree
      (extPhase false DOC_EXTENSIONS "docs" (fun _ => docsInfo) tree
      (extPhase false CONFIG_EXTENSIONS "config" configInfo tree
      (extPhase false CODE_EXTENSIONS "code" (codeInfo P) tree emptyScan))))).files p = none := by
                    rw [hA5, v4]; simp [hm5]
                  cases hif : e.isFile with
                  | true =>
                    have hfi : fileInfoFor P e = some (otherInfo e) := by
                      simp [fileInfoFor, hsk, hm1, hm2, hm3, hm4, hm5, hif]
                    rw [hBs c hc, v5, v4, hfi]
                    simp [hsk, hm1, hm2, hm3, hm4, hm5, hif, otherInfo]
                  | false =>
                    have hfi : fileInfoFor P e = none := by
                      simp [fileInfoFor, hsk, hm1, hm2, hm3, hm4, hm5, hif]
                    rw [hBs c hc, v5, v4, hfi]
                    simp [hsk, hm1, hm2, hm3, hm4, hm5, hif]

/-- Every record fileInfoFor produces carries one of the six category
names. -/
theorem fileInfoFor_category (P : Parsers) (e : TreeEntry) (info : FileInfo)
    (h : fileInfoFor P e = some info) : info.category ∈ CATEGORIES := by
  unfold fileInfoFor at h
  by_cases hsk : isSkipped e.path = true
  · rw [if_pos hsk] at h; exact absurd h (by simp)
  rw [if_neg hsk] at h
  by_cases h1 : matchesAny CODE_EXTENSIONS e.path = true
  · rw [if_pos h1] at h
    rw [← Option.some.inj h]
    simp [CATEGORIES, codeInfo]
  rw [if_neg h1] at h
  by_cases h2 : matchesAny CONFIG_EXTENSIONS e.path = true
  · rw [if_pos h2] at h
    rw [← Option.some.inj h]
    simp [CATEGORIES, configInfo]
  rw [if_neg h2] at h
  by_cases h3 : matchesAny DOC_EXTENSIONS e.path = true
  · rw [if_pos h3] at h
    rw [← Option.some.inj h]
    simp [CATEGORIES, docsInfo]
  rw [if_neg h3] at h
  by_cases h4 : matchesAny STYLE_EXTENSIONS e.path = true
  · rw [if_pos h4] at h
    rw [← Option.some.inj h]
    simp [CATEGORIES, stylesInfo]
  rw [if_neg h4] at h
  by_cases h5 : matchesAny DATA_EXTENSIONS e.path = true
  · rw [if_pos h5] at h
    rw [← Option.some.inj h]
    simp [CATEGORIES, dataInfo]
  rw [if_neg h5] at h
  by_cases h6 : e.isFile = true
  · rw [if_pos h6] at h
    rw [← Option.some.inj h]
    simp [CATEGORIES, otherInfo]
  · rw [if_neg h6] at h
    exact absurd h (by simp)

/-- Claim C9: after a completed scan with scan_all (the default), the
files mapping is partitioned by the six category buckets: every path of
the files dict appears in exactly the bucket its record category names,
and the files dict is the disjoint union of the six buckets. -/
theorem c9_partition (P : Parsers) (tree : Tree)
    (hnd : (tree.map TreeEntry.path).Nodup) :
    Partitioned (scanFiles P true tree) := by
  intro p
  have h := scanFiles_lookup P tree hnd p
  constructor
  · intro info hinfo
    rw [h.1] at hinfo
    cases hf : tree.find? (fun e => e.path == p) with
    | none => rw [hf] at hinfo; exact absurd hinfo (by simp)
    | some e =>
      rw [hf] at hinfo
      have hfi : fileInfoFor P e = some info := hinfo
      have hcat := fileInfoFor_category P e info hfi
      refine ⟨hcat, ?_, ?_⟩
      · rw [h.2 info.category hcat, hf]
        show (match fileInfoFor P e with
          | some i => if i.category = info.category then some i else none
          | none => none) = some info
        rw [hfi]
        simp
      · intro c hc hne
        rw [h.2 c hc, hf]
        show (match fileInfoFor P e with
          | some i => if i.category = c then some i else none
          | none => none) = none
        rw [hfi]
        simp only []
        rw [if_neg (fun hh => hne hh.symm)]
  · intro hnone c hc
    rw [h.1] at hnone
    rw [h.2 c hc]
    cases hf : tree.find? (fun e => e.path == p) with
    | none => rfl
    | some e =>
      rw [hf] at hnone
      have hfi : fileInfoFor P e = none := hnone
      show (match fileInfoFor P e with
        | some i => if i.category = c then some i else none
        | none => none) = none
      rw [hfi]

/-- Witness for claim C9: the partition holds for the concrete two-file
tree. -/
theorem c9_partition_witness : Partitioned (scanFiles exParsers true exTreeA) :=
  c9_partition exParsers exTreeA (by decide)

/-- For trees with distinct paths, the entry found for a path is
invariant under re-enumeration of the tree. -/
theorem find?_path_perm {t1 t2 : Tree} (hperm : t1.Perm t2)
    (hnd : (t1.map TreeEntry.path).Nodup) (p : String) :
    t1.find? (fun e => e.path == p) = t2.find? (fun e => e.path == p) := by
  cases h1 : t1.find? (fun e => e.path == p) with
  | none =>
    have h1n := List.find?_eq_none.mp h1
    symm
    rw [List.find?_eq_none]
    intro x hx
    exact h1n x (hperm.mem_iff.mpr hx)
  | some e =>
    have hmem : e ∈ t1 := List.mem_of_find?_eq_some h1
    have hb1 : (e.path == p) = true := by simpa using List.find?_some h1
    have hpred : e.path = p := eq_of_beq hb1
    cases h2 : t2.find? (fun e => e.path == p) with
    | none =>
      have h2n := List.find?_eq_none.mp h2
      exact absurd (List.find?_some h1) (h2n e (hperm.mem_iff.mp hmem))
    | some e2 =>
      have hmem2 : e2 ∈ t1 := hperm.mem_iff.mpr (List.mem_of_find?_eq_some h2)
      have hb2 : (e2.path == p) = true := by simpa using List.find?_some h2
      have hpred2 : e2.path = p := eq_of_beq hb2
      have he : e = e2 :=
        List.inj_on_of_nodup_map hnd hmem hmem2 (by rw [hpred, hpred2])
      rw [he]

/-- Claim C7, amended: the files mapping of the snapshot, and with it
every extracted symbol list, is a pure function of the tree contents:
it is invariant under re-enumeration (permutation) of the directory
walk.  (As the counterexample shows, the unamended claim fails for the
ports mapping, which is enumeration-order dependent.) -/
theorem c7_amended_scan_order_invariant :
    ∀ (P : Parsers) (t1 t2 : Tree), t1.Perm t2 →
      (t1.map TreeEntry.path).Nodup →
      ∀ p, alGet (scanFiles P true t1).files p = alGet (scanFiles P true t2).files p ∧
        (alGet (scanFiles P true t1).files p).map FileInfo.functions =
          (alGet (scanFiles P true t2).files p).map FileInfo.functions := by
  intro P t1 t2 hperm hnd p
  have hnd2 : (t2.map TreeEntry.path).Nodup :=
    ((hperm.map TreeEntry.path).nodup_iff).mp hnd
  have h1 := (scanFiles_lookup P t1 hnd p).1
  have h2 := (scanFiles_lookup P t2 hnd2 p).1
  have heq : alGet (scanFiles P true t1).files p =
      alGet (scanFiles P true t2).files p := by
    rw [h1, h2, find?_path_perm hperm hnd p]
  exact ⟨heq, by rw [heq]⟩

/-- Witness for the amended claim C7: the two enumerations of the
concrete two-file tree agree on the record of a.py. -/
theorem c7_amended_witness :
    alGet (scanFiles exParsers true exTreeA).files "a.py" =
      alGet (scanFiles exParsers true exTreeB).files "a.py" :=
  (c7_amended_scan_order_invariant exParsers exTreeA exTreeB (by decide)
    (by decide) "a.py").1

set_option maxRecDepth 8000 in
/-- Counterexample to claim C7: the two trees hold the same files with
the same contents (they are permutations, differing only in the order
the directory walk enumerates them), yet the scans disagree beyond any
timestamp: the ports mapping records a different declaring file for
port 3000, because _detect_connections lets the last match win while
nothing sorts the walk. -/
theorem c7_counterexample :
    exTreeA.Perm exTreeB ∧
    alGet (detectConnections exParsers exTreeA) "3000" = some "b.py" ∧
    alGet (detectConnections exParsers exTreeB) "3000" = some "a.py" ∧
    detectConnections exParsers exTreeA ≠ detectConnections exParsers exTreeB := by
  refine ⟨by decide, ?_, ?_, ?_⟩ <;> with_unfolding_all decide

/-- Lookup after the per-match fold of _detect_connections: the port is
bound to the file when some in-range match equals it. -/
theorem foldPorts_get (pathv : String) :
    ∀ (qs : List String) (conns : List (String × String)) (port : String),
      alGet (qs.foldl (fun conns q =>
        if 1000 ≤ pyInt q ∧ pyInt q ≤ 65535 then alSet conns q pathv
        else conns) conns) port =
      (if qs.any (fun q => q == port && decide (1000 ≤ pyInt q ∧ pyInt q ≤ 65535))
       then some pathv else alGet conns port) := by
  intro qs
  induction qs with
  | nil => intro conns port; simp
  | cons q qs ih =>
    intro conns port
    simp only [List.foldl_cons, List.any_cons]
    rw [ih]
    by_cases hr : 1000 ≤ pyInt q ∧ pyInt q ≤ 65535
    · by_cases hq : q = port
      · subst hq
        rw [if_pos hr]
        rw [alGet_alSet_self]
        simp [hr]
      · rw [if_pos hr, alGet_alSet_ne _ _ _ _ (fun hh => hq hh.symm)]
        have : (q == port) = false := by simp [hq]
        simp [this]
    · rw [if_neg hr]
      have : decide (1000 ≤ pyInt q ∧ pyInt q ≤ 65535) = false := by simp [hr]
      simp [this]

/-- Lookup after the per-pattern fold of _detect_connections. -/
theorem foldPatterns_get (P : Parsers) (pathv c : String) :
    ∀ (idxs : List Nat) (conns : List (String × String)) (port : String),
      alGet (idxs.foldl (fun conns i =>
        (P.portFindall i c).foldl (fun conns q =>
          if 1000 ≤ pyInt q ∧ pyInt q ≤ 65535 then alSet conns q pathv
          else conns) conns) conns) port =
      (if idxs.any (fun i => (P.portFindall i c).any (fun q =>
          q == port && decide (1000 ≤ pyInt q ∧ pyInt q ≤ 65535)))
       then some pathv else alGet conns port) := by
  intro idxs
  induction idxs with
  | nil => intro conns port; simp
  | cons i idxs ih =>
    intro conns port
    simp only [List.foldl_cons, List.any_cons]
    rw [ih, foldPorts_get]
    by_cases hb1 : ((P.portFindall i c).any fun q =>
        q == port && decide (1000 ≤ pyInt q ∧ pyInt q ≤ 65535)) = true
    · simp only [hb1]
      simp
    · have hb1f : ((P.portFindall i c).any fun q =>
          q == port && decide (1000 ≤ pyInt q ∧ pyInt q ≤ 65535)) = false := by
        simpa using hb1
      simp only [hb1f]
      simp

/-- Lookup after one entry of _detect_connections: the port is bound to
this file exactly when the entry declares it, and otherwise keeps its
previous binding. -/
theorem connStep_get (P : Parsers) (conns : List (String × String))
    (e : TreeEntry) (port : String) :
    alGet (connStep P conns e) port =
      (if declaresPort P e port then some e.path else alGet conns port) := by
  unfold connStep declaresPort
  cases helig : (e.isFile && (pySuffix e.path ∈ CONNECTION_EXTS) && !isSkipped e.path) with
  | false => simp
  | true =>
    cases hcont : e.content with
    | none => simp
    | some c =>
      simp only [Bool.true_and, if_true]
      rw [foldPatterns_get]

/-- The last declaring file of a port wins in _detect_connections. -/
theorem detectConnections_from (P : Parsers) :
    ∀ (tree : Tree) (conns : List (String × String)) (port : String),
      alGet (tree.foldl (connStep P) conns) port =
        (match (tree.filter (fun e => declaresPort P e port)).getLast? with
         | some e => some e.path
         | none => alGet conns port) := by
  intro tree
  induction tree with
  | nil => intro conns port; rfl
  | cons e rest ih =>
    intro conns port
    have hstep : (e :: rest).foldl (connStep P) conns =
        rest.foldl (connStep P) (connStep P conns e) := rfl
    rw [hstep, ih]
    cases hd : declaresPort P e port with
    | true =>
      have hfc : (e :: rest).filter (fun x => declaresPort P x port) =
          e :: rest.filter (fun x => declaresPort P x port) := by
        rw [List.filter_cons, if_pos hd]
      rw [hfc]
      cases hl : (rest.filter (fun x => declaresPort P x port)).getLast? with
      | some e2 =>
        have hcons : (e :: rest.filter (fun x => declaresPort P x port)).getLast? =
            some e2 := by
          cases hfl : rest.filter (fun x => declaresPort P x port) with
          | nil => rw [hfl] at hl; simp at hl
          | cons a l =>
            rw [hfl] at hl
            rw [List.getLast?_cons_cons, hl]
        rw [hcons]
      | none =>
        have hfl : rest.filter (fun x => declaresPort P x port) = [] := by
          simpa using hl
        rw [hfl]
        show alGet (connStep P conns e) port = _
        rw [connStep_get, if_pos hd]
        rfl
    | false =>
      have hfc : (e :: rest).filter (fun x => declaresPort P x port) =
          rest.filter (fun x => declaresPort P x port) := by
        rw [List.filter_cons, if_neg (by simp [hd])]
      rw [hfc]
      cases hl : (rest.filter (fun x => declaresPort P x port)).getLast? with
      | some e2 => rfl
      | none =>
        show alGet (connStep P conns e) port = alGet conns port
        rw [connStep_get, if_neg (by simp [hd])]

/-- Claim C8, amended: every recorded port lies in the numeric range
[1000, 65535]; but when the same port is matched in more than one
place, the LAST declaring file wins (later matches replace earlier
ones), not the first as claimed. -/
theorem c8_amended_ports (P : Parsers) (tree : Tree) (port : String) :
    (alGet (detectConnections P tree) port =
      (match (tree.filter (fun e => declaresPort P e port)).getLast? with
       | some e => some e.path
       | none => none)) ∧
    (∀ file, alGet (detectConnections P tree) port = some file →
      1000 ≤ pyInt port ∧ pyInt port ≤ 65535) := by
  have hchar : alGet (detectConnections P tree) port =
      (match (tree.filter (fun e => declaresPort P e port)).getLast? with
       | some e => some e.path
       | none => none) := by
    have h := detectConnections_from P tree [] port
    exact h
  refine ⟨hchar, ?_⟩
  intro file hfile
  rw [hchar] at hfile
  cases hl : (tree.filter (fun e => declaresPort P e port)).getLast? with
  | none => rw [hl] at hfile; exact absurd hfile (by simp)
  | some e =>
    have hmem := List.mem_of_getLast?_eq_some hl
    have hdecl : declaresPort P e port = true := (List.mem_filter.mp hmem).2
    unfold declaresPort at hdecl
    simp only [Bool.and_eq_true, List.any_eq_true] at hdecl
    obtain ⟨helig, hrest⟩ := hdecl
    cases hcont : e.content with
    | none => rw [hcont] at hrest; exact absurd hrest (by simp)
    | some c =>
      rw [hcont] at hrest
      obtain ⟨i, hi, q, hq, hqp⟩ := by simpa using hrest
      obtain ⟨hqport, hrange⟩ := by simpa using hqp
      rw [← hqport]
      exact hrange

set_option maxRecDepth 8000 in
/-- Counterexample to claim C8: a.py and b.py both declare port 3000
and a.py is enumerated first, yet the mapping records b.py: later
matches replace earlier ones, so the first match does not win. -/
theorem c8_counterexample :
    alGet (detectConnections exParsers exTreeA) "3000" = some "b.py" ∧
    alGet (detectConnections exParsers exTreeA) "3000" ≠ some "a.py" := by
  constructor <;> with_unfolding_all decide

/-- Witness for the amended claim C8: the recorded binding of port 3000
is in range. -/
theorem c8_amended_witness : 1000 ≤ pyInt "3000" ∧ pyInt "3000" ≤ 65535 :=
  (c8_amended_ports exParsers exTreeA "3000").2 "b.py"
    (by with_unfolding_all decide)

end Guardian
